import Mathlib

/-!
Verification of the Mutagen Compose reconciliation core (pkg/mutagen/liaison.go).

The development shallowly embeds the code: the specification builder
(`processProject`), the reconciliation driver (`reconcileSessions`, modelled as
the trace of daemon RPCs it issues on a successful pass), and the
classify/diff algorithm.  Helper functions of this repository and of the
Mutagen library that are not part of the embedded source file (URL grammar
predicates, configuration merging, identifier truncation) are modelled from
the specification and carry a doc comment saying so.
-/

namespace MutagenCompose

/-- Prefix test on character lists (structural, so that it evaluates). -/
def charsHavePrefix : List Char → List Char → Bool
  | [], _ => true
  | _ :: _, [] => false
  | p :: ps, c :: cs => p == c && charsHavePrefix ps cs

/-- String prefix test via the underlying character list. -/
def stringHasPrefix (p s : String) : Bool :=
  charsHavePrefix p.data s.data

/-- Drop the first `n` characters of a string. -/
def stringDrop (n : Nat) (s : String) : String :=
  ⟨s.data.drop n⟩

/-- Split a character list at the first occurrence of `c`, if any. -/
def breakAtChar (c : Char) : List Char → Option (List Char × List Char)
  | [] => none
  | x :: xs =>
    if x == c then some ([], xs)
    else
      match breakAtChar c xs with
      | none => none
      | some (pre, post) => some (x :: pre, post)

/-- Split a string at the first occurrence of `c`, if any. -/
def stringBreakAtChar (c : Char) (s : String) : Option (String × String) :=
  match breakAtChar c s.data with
  | none => none
  | some (pre, post) => some (⟨pre⟩, ⟨post⟩)

/-- Configuration: a sparse record of tunable session parameters where each
field is independently optional.  Modelled from the spec (the concrete record
type lives in the external Mutagen library): the fields stand for the sync
mode, ignore rules, permission policy, watch mode and probe mode named by the
data model. -/
structure Configuration where
  synchronizationMode : Option Nat := none
  ignores : Option (List String) := none
  permissionsMode : Option Nat := none
  watchMode : Option Nat := none
  probeMode : Option Nat := none
deriving DecidableEq

/-- MergeConfigurations.  Modelled from the spec (the implementation lives in
the external Mutagen library): field-wise last-writer-wins, the higher layer's
field winning whenever it is set. -/
def mergeConfigurations (lower higher : Configuration) : Configuration where
  synchronizationMode := higher.synchronizationMode.orElse fun _ => lower.synchronizationMode
  ignores := higher.ignores.orElse fun _ => lower.ignores
  permissionsMode := higher.permissionsMode.orElse fun _ => lower.permissionsMode
  watchMode := higher.watchMode.orElse fun _ => lower.watchMode
  probeMode := higher.probeMode.orElse fun _ => lower.probeMode

/-- The three-tier effective merge of the spec, `merge(global, roleDefault,
override)`, evaluated `override > roleDefault > global` by iterating the same
pairwise merge that the build applies at each configuration slot.  Modelled
from the spec. -/
def mergeThreeTier (global roleDefault override : Configuration) : Configuration :=
  mergeConfigurations (mergeConfigurations global roleDefault) override

/-- Configuration.EnsureValid.  Modelled from the spec (implementation in the
external Mutagen library): an endpoint-specific configuration must not carry
two-sided-only fields (the synchronization mode and the ignore rules). -/
def Configuration.ensureValid (c : Configuration) (endpointSpecific : Bool) : Bool :=
  if endpointSpecific then c.synchronizationMode.isNone && c.ignores.isNone else true

/-- Endpoint protocols distinguished by the classifier. -/
inductive Protocol where
  | local
  | ssh
  | docker
  | network
deriving DecidableEq

/-- A parsed endpoint URL: protocol tag plus path/address payload. -/
structure URL where
  protocol : Protocol
  path : String
deriving DecidableEq

/-- isNetworkURL.  Modelled from the spec: network-service pseudo-URLs carry
the `network://` scheme. -/
def isNetworkURL (raw : String) : Bool :=
  stringHasPrefix "network://" raw

/-- isVolumeURL.  Modelled from the spec: shared-volume references carry the
`volume://` scheme. -/
def isVolumeURL (raw : String) : Bool :=
  stringHasPrefix "volume://" raw

/-- forwardingurl.Parse.  Modelled from the spec (implementation in the
external Mutagen library): a forwarding endpoint URL is
`<protocol>:<address>` with both parts non-empty. -/
def forwardingurlParse (s : String) : Except String (String × String) :=
  match stringBreakAtChar ':' s with
  | none => .error "invalid forwarding endpoint URL"
  | some (protocol, address) =>
    if protocol.data.isEmpty then .error "empty forwarding endpoint protocol"
    else if address.data.isEmpty then .error "empty forwarding endpoint address"
    else .ok (protocol, address)

/-- isTCPForwardingProtocol.  Modelled from the spec: the TCP-based transports
accepted for forwarding endpoints. -/
def isTCPForwardingProtocol (protocol : String) : Bool :=
  protocol == "tcp" || protocol == "tcp4" || protocol == "tcp6"

/-- url.Parse for forwarding-kind URLs.  Modelled from the spec (implementation
in the external Mutagen library): `docker://` URLs classify as Docker,
scp-style addresses as SSH, and anything else must parse under the forwarding
endpoint grammar to classify as a local URL whose path is the raw address. -/
def urlParseForwarding (raw : String) : Except String URL :=
  if stringHasPrefix "docker://" raw then .ok ⟨.docker, stringDrop 9 raw⟩
  else if raw.data.contains '@' then .ok ⟨.ssh, raw⟩
  else
    match forwardingurlParse raw with
    | .error e => .error e
    | .ok _ => .ok ⟨.local, raw⟩

/-- url.Parse for synchronization-kind URLs.  Modelled from the spec
(implementation in the external Mutagen library): `docker://` URLs classify as
Docker, scp-style addresses as SSH, and any other non-empty address is a local
path. -/
def urlParseSynchronization (raw : String) : Except String URL :=
  if stringHasPrefix "docker://" raw then .ok ⟨.docker, stringDrop 9 raw⟩
  else if raw.data.contains '@' then .ok ⟨.ssh, raw⟩
  else if raw.data.isEmpty then .error "empty synchronization URL"
  else .ok ⟨.local, raw⟩

/-- mountPathForVolumeInMutagenContainer.  Modelled from the spec: the
OS-specific mount-path convention for a volume inside the sidecar. -/
def mountPathForVolumeInMutagenContainer (osType volume : String) : String :=
  if osType == "windows" then "c:\x5cvolumes\x5c" ++ volume
  else "/volumes/" ++ volume

/-- parseNetworkURL.  Modelled from the spec: a forwarding destination is
`network://<network>:<endpoint>` where the endpoint reparses under the
forwarding grammar and must be TCP-based. -/
def parseNetworkURL (raw : String) : Except String (URL × String) :=
  if ¬ isNetworkURL raw then .error "not a network URL"
  else
    match stringBreakAtChar ':' (stringDrop 10 raw) with
    | none => .error "invalid network URL"
    | some (network, endpoint) =>
      if network.data.isEmpty then .error "empty network name in network URL"
      else
        match forwardingurlParse endpoint with
        | .error e => .error e
        | .ok (protocol, _) =>
          if isTCPForwardingProtocol protocol then .ok (⟨.network, raw⟩, network)
          else .error "non-TCP network URL endpoint"

/-- parseVolumeURL.  Modelled from the spec: a volume URL is
`volume://<volume>` with a non-empty volume name; the parsed URL is a sidecar
placeholder targeting the OS-specific mount path of that volume. -/
def parseVolumeURL (raw osType : String) : Except String (URL × String) :=
  if ¬ isVolumeURL raw then .error "not a volume URL"
  else
    let volume := stringDrop 9 raw
    if volume.data.isEmpty then .error "empty volume name in volume URL"
    else .ok (⟨.docker, mountPathForVolumeInMutagenContainer osType volume⟩, volume)

/-- selection.EnsureNameValid.  Modelled from the spec (implementation in the
external Mutagen library): the shared session-naming grammar accepts non-empty
names made of alphanumeric characters and dashes. -/
def ensureNameValid (name : String) : Bool :=
  !name.data.isEmpty && name.data.all fun c => c.isAlphanum || c == '-'

/-- Name of the hidden Mutagen sidecar service.  Modelled from the spec (the
constant is declared outside the embedded source file). -/
def sidecarServiceName : String := "mutagen"

/-- Image reference of the sidecar service.  Modelled from the spec. -/
def sidecarImage : String := "mutagenio/sidecar"

/-- Role-marker label key on the sidecar service.  Modelled from the spec. -/
def sidecarRoleLabelKey : String := "io.mutagen.sidecar-role"

/-- Role-marker label value on the sidecar service.  Modelled from the spec. -/
def sidecarRoleLabelValue : String := "sidecar"

/-- Version-marker label key on the sidecar service.  Modelled from the
spec. -/
def sidecarVersionLabelKey : String := "io.mutagen.sidecar-version"

/-- Mutagen version string stamped as the version marker.  Modelled from the
spec. -/
def mutagenVersion : String := "0.13.1"

/-- Ownership-label key binding a daemon session to the sidecar container.
Modelled from the spec data model. -/
def sessionSidecarLabelKey : String := "sidecar-session-owner"

/-- chopSidecarIdentifier.  Modelled from the spec (the helper is declared
outside the embedded source file): truncation of the raw sidecar container
identity to the short 12-character prefix, so the value satisfies the daemon's
label-value constraints. -/
def chopSidecarIdentifier (identifier : String) : String :=
  ⟨identifier.data.take 12⟩

/-- A volume mount of a Compose service (compose-go ServiceVolumeConfig). -/
structure ServiceVolumeConfig where
  type : String := "volume"
  source : String := ""
  target : String := ""
deriving DecidableEq

/-- A Compose service definition, restricted to the fields the build reads or
writes. -/
structure ServiceConfig where
  name : String
  image : String := ""
  labels : List (String × String) := []
  networks : List String := []
  volumes : List ServiceVolumeConfig := []
  dependsOn : List (String × String) := []
deriving DecidableEq

/-- A forwarding session entry of the x-mutagen extension block. -/
structure ForwardingSessionDef where
  source : String := ""
  destination : String := ""
  configuration : Configuration := {}
  configurationSource : Configuration := {}
  configurationDestination : Configuration := {}
deriving DecidableEq

/-- A synchronization session entry of the x-mutagen extension block. -/
structure SynchronizationSessionDef where
  alpha : String := ""
  beta : String := ""
  configuration : Configuration := {}
  configurationAlpha : Configuration := {}
  configurationBeta : Configuration := {}
deriving DecidableEq

/-- The decoded x-mutagen extension block (the `configuration` type of the
source), with session entries keyed by name. -/
structure XMutagenConfiguration where
  forwarding : List (String × ForwardingSessionDef) := []
  synchronization : List (String × SynchronizationSessionDef) := []
deriving DecidableEq

/-- A Compose project, restricted to the parts the build reads or writes.  The
extension block is carried already decoded (decoding is done by an external
strict decoder in the source). -/
structure Project where
  workingDir : String := ""
  services : List ServiceConfig := []
  networks : List String := []
  volumes : List String := []
  xMutagen : Option XMutagenConfiguration := none
deriving DecidableEq

/-- forwardingsvc.CreationSpecification. -/
structure ForwardingCreationSpecification where
  source : URL
  destination : URL
  configuration : Configuration
  configurationSource : Configuration
  configurationDestination : Configuration
  name : String
  labels : List (String × String) := []
deriving DecidableEq

/-- synchronizationsvc.CreationSpecification. -/
structure SynchronizationCreationSpecification where
  alpha : URL
  beta : URL
  configuration : Configuration
  configurationAlpha : Configuration
  configurationBeta : Configuration
  name : String
  labels : List (String × String) := []
deriving DecidableEq

/-- The liaison state populated by processProject: the stored forwarding and
synchronization session specifications, keyed by session name. -/
structure Liaison where
  forwarding : List (String × ForwardingCreationSpecification) := []
  synchronization : List (String × SynchronizationCreationSpecification) := []
deriving DecidableEq

/-- Failure outcomes of the build: a described error returned to the caller,
or an abrupt panic (the source contains a single panic site, in the forwarding
source reparse). -/
inductive BuildError where
  | err (message : String)
  | panicked (message : String)
deriving DecidableEq

/-- Extraction of the reserved `defaults` forwarding entry: forbids endpoint
URLs on it, validates its three configurations, and removes it from the
iterable session set (liaison.go lines 128-151). -/
def extractForwardingDefaults (forwarding : List (String × ForwardingSessionDef)) :
    Except BuildError (Configuration × Configuration × Configuration ×
      List (String × ForwardingSessionDef)) :=
  match forwarding.lookup "defaults" with
  | none => .ok ({}, {}, {}, forwarding)
  | some defaults =>
    if defaults.source ≠ "" then
      .error (.err "source URL not allowed in default forwarding configuration")
    else if defaults.destination ≠ "" then
      .error (.err "destination URL not allowed in default forwarding configuration")
    else if ¬ defaults.configuration.ensureValid false then
      .error (.err "invalid default forwarding configuration")
    else if ¬ defaults.configurationSource.ensureValid true then
      .error (.err "invalid default forwarding source configuration")
    else if ¬ defaults.configurationDestination.ensureValid true then
      .error (.err "invalid default forwarding destination configuration")
    else
      .ok (defaults.configuration, defaults.configurationSource,
        defaults.configurationDestination,
        forwarding.filter fun entry => entry.1 ≠ "defaults")

/-- Extraction of the reserved `defaults` synchronization entry (liaison.go
lines 153-176). -/
def extractSynchronizationDefaults
    (synchronization : List (String × SynchronizationSessionDef)) :
    Except BuildError (Configuration × Configuration × Configuration ×
      List (String × SynchronizationSessionDef)) :=
  match synchronization.lookup "defaults" with
  | none => .ok ({}, {}, {}, synchronization)
  | some defaults =>
    if defaults.alpha ≠ "" then
      .error (.err "alpha URL not allowed in default synchronization configuration")
    else if defaults.beta ≠ "" then
      .error (.err "beta URL not allowed in default synchronization configuration")
    else if ¬ defaults.configuration.ensureValid false then
      .error (.err "invalid default synchronization configuration")
    else if ¬ defaults.configurationAlpha.ensureValid true then
      .error (.err "invalid default synchronization alpha configuration")
    else if ¬ defaults.configurationBeta.ensureValid true then
      .error (.err "invalid default synchronization beta configuration")
    else
      .ok (defaults.configuration, defaults.configurationAlpha,
        defaults.configurationBeta,
        synchronization.filter fun entry => entry.1 ≠ "defaults")

/-- Validation and conversion of one forwarding session entry into a creation
specification plus its network dependency (liaison.go lines 182-257). -/
def processForwardingSession (defaultConfiguration defaultSource defaultDestination :
    Configuration) (name : String) (session : ForwardingSessionDef) :
    Except BuildError (ForwardingCreationSpecification × String) :=
  if ¬ ensureNameValid name then
    .error (.err ("invalid forwarding session name (" ++ name ++ ")"))
  else if isNetworkURL session.source then
    .error (.err ("network URL (" ++ session.source ++ ") not allowed as forwarding source"))
  else
    match urlParseForwarding session.source with
    | .error e =>
      .error (.err ("unable to parse forwarding source URL (" ++ session.source ++ "): " ++ e))
    | .ok sourceURL =>
      if sourceURL.protocol ≠ .local then
        .error (.err "only local URLs allowed as forwarding sources")
      else
        match forwardingurlParse sourceURL.path with
        | .error _ => .error (.panicked "forwarding URL failed to reparse")
        | .ok (protocol, _) =>
          if ¬ isTCPForwardingProtocol protocol then
            .error (.err ("non-TCP-based forwarding endpoint (" ++ sourceURL.path ++ ") unsupported"))
          else if ¬ isNetworkURL session.destination then
            .error (.err ("forwarding destination (" ++ session.destination ++ ") should be a network URL"))
          else
            match parseNetworkURL session.destination with
            | .error e =>
              .error (.err ("unable to parse forwarding destination URL (" ++ session.destination ++ "): " ++ e))
            | .ok (destinationURL, network) =>
              if ¬ session.configuration.ensureValid false then
                .error (.err ("invalid forwarding session configuration for " ++ name))
              else if ¬ session.configurationSource.ensureValid true then
                .error (.err ("invalid forwarding session source configuration for " ++ name))
              else if ¬ session.configurationDestination.ensureValid true then
                .error (.err ("invalid forwarding session destination configuration for " ++ name))
              else
                .ok ({ source := sourceURL
                       destination := destinationURL
                       configuration := mergeConfigurations defaultConfiguration session.configuration
                       configurationSource := mergeConfigurations defaultSource session.configurationSource
                       configurationDestination :=
                         mergeConfigurations defaultDestination session.configurationDestination
                       name := name }, network)

/-- Processing of every forwarding session entry, accumulating the
specifications and the network dependency set; the first failure aborts the
build (liaison.go lines 178-257). -/
def processForwardingSessions (defaultConfiguration defaultSource defaultDestination :
    Configuration) :
    List (String × ForwardingSessionDef) →
    Except BuildError (List (String × ForwardingCreationSpecification) × List String)
  | [] => .ok ([], [])
  | (name, session) :: rest =>
    match processForwardingSession defaultConfiguration defaultSource defaultDestination
        name session with
    | .error e => .error e
    | .ok (specification, network) =>
      match processForwardingSessions defaultConfiguration defaultSource defaultDestination
          rest with
      | .error e => .error e
      | .ok (specifications, networks) =>
        .ok ((name, specification) :: specifications, network :: networks)

/-- Local-path resolution against the project working directory: relative
paths are joined onto it (liaison.go lines 303-307 and 326-330). -/
def resolveLocalPath (workingDir path : String) : String :=
  if stringHasPrefix "/" path then path else workingDir ++ "/" ++ path

/-- Parsing of one synchronization endpoint URL: a volume URL yields the
sidecar placeholder and its volume dependency, otherwise the address must be a
local URL and relative paths resolve against the working directory
(liaison.go lines 284-331). -/
def parseSynchronizationEndpointURL (osType workingDir : String) (isVolume : Bool)
    (raw : String) : Except String (URL × List String) :=
  if isVolume then
    match parseVolumeURL raw osType with
    | .error e => .error e
    | .ok (u, volume) => .ok (u, [volume])
  else
    match urlParseSynchronization raw with
    | .error e => .error e
    | .ok u =>
      if u.protocol ≠ .local then
        .error "only local and volume URLs allowed as synchronization URLs"
      else .ok ({ u with path := resolveLocalPath workingDir raw }, [])

/-- Validation and conversion of one synchronization session entry into a
creation specification plus its volume dependencies (liaison.go lines
263-363). -/
def processSynchronizationSession (osType workingDir : String)
    (defaultConfiguration defaultAlpha defaultBeta : Configuration)
    (name : String) (session : SynchronizationSessionDef) :
    Except BuildError (SynchronizationCreationSpecification × List String) :=
  if ¬ ensureNameValid name then
    .error (.err ("invalid synchronization session name (" ++ name ++ ")"))
  else
    let alphaIsVolume := isVolumeURL session.alpha
    let betaIsVolume := isVolumeURL session.beta
    if ¬ (alphaIsVolume || betaIsVolume) then
      .error (.err ("neither alpha nor beta references a volume in synchronization session (" ++ name ++ ")"))
    else if alphaIsVolume && betaIsVolume then
      .error (.err ("both alpha and beta reference volumes in synchronization session (" ++ name ++ ")"))
    else
      match parseSynchronizationEndpointURL osType workingDir alphaIsVolume session.alpha with
      | .error e =>
        .error (.err ("unable to parse synchronization alpha URL (" ++ session.alpha ++ "): " ++ e))
      | .ok (alphaURL, alphaVolumes) =>
        match parseSynchronizationEndpointURL osType workingDir betaIsVolume session.beta with
        | .error e =>
          .error (.err ("unable to parse synchronization beta URL (" ++ session.beta ++ "): " ++ e))
        | .ok (betaURL, betaVolumes) =>
          if ¬ session.configuration.ensureValid false then
            .error (.err ("invalid synchronization session configuration for " ++ name))
          else if ¬ session.configurationAlpha.ensureValid true then
            .error (.err ("invalid synchronization session alpha configuration for " ++ name))
          else if ¬ session.configurationBeta.ensureValid true then
            .error (.err ("invalid synchronization session beta configuration for " ++ name))
          else
            .ok ({ alpha := alphaURL
                   beta := betaURL
                   configuration := mergeConfigurations defaultConfiguration session.configuration
                   configurationAlpha := mergeConfigurations defaultAlpha session.configurationAlpha
                   configurationBeta := mergeConfigurations defaultBeta session.configurationBeta
                   name := name }, alphaVolumes ++ betaVolumes)

/-- Processing of every synchronization session entry, accumulating the
specifications and the volume dependency set (liaison.go lines 259-363). -/
def processSynchronizationSessions (osType workingDir : String)
    (defaultConfiguration defaultAlpha defaultBeta : Configuration) :
    List (String × SynchronizationSessionDef) →
    Except BuildError (List (String × SynchronizationCreationSpecification) × List String)
  | [] => .ok ([], [])
  | (name, session) :: rest =>
    match processSynchronizationSession osType workingDir defaultConfiguration
        defaultAlpha defaultBeta name session with
    | .error e => .error e
    | .ok (specification, volumes) =>
      match processSynchronizationSessions osType workingDir defaultConfiguration
          defaultAlpha defaultBeta rest with
      | .error e => .error e
      | .ok (specifications, rest') =>
        .ok ((name, specification) :: specifications, volumes ++ rest')

/-- For every service mounting a volume of the dependency set, add a
"must have started" ordering dependency on the sidecar service (liaison.go
lines 377-393). -/
def addSidecarDependencies (volumeDependencies : List String)
    (services : List ServiceConfig) : List ServiceConfig :=
  services.map fun service =>
    if service.volumes.any (fun v => v.type == "volume" && volumeDependencies.contains v.source) then
      { service with dependsOn := service.dependsOn ++ [(sidecarServiceName, "service_started")] }
    else service

/-- The sidecar service definition, with the collected network and volume
dependency sets attached as its networks and mounts, and identifying labels
(liaison.go lines 395-416). -/
def sidecarService (osType : String) (networkDependencies volumeDependencies :
    List String) : ServiceConfig :=
  { name := sidecarServiceName
    image := sidecarImage
    labels := [(sidecarRoleLabelKey, sidecarRoleLabelValue),
               (sidecarVersionLabelKey, mutagenVersion)]
    networks := networkDependencies
    volumes := volumeDependencies.map fun volume =>
      { type := "volume", source := volume
        target := mountPathForVolumeInMutagenContainer osType volume } }

/-- processProject (liaison.go lines 82-424): the specification build.  A nil
project is a no-op.  Otherwise: name-collision guard, daemon metadata query
(carried as an `Except`-valued input since it is an external call), defaults
extraction, per-session validation and conversion, dependency validation,
ordering-dependency injection, sidecar append, and storage of the session
specifications in the liaison. -/
def processProject (project : Option Project) (daemonMetadata : Except String String)
    (l : Liaison) : Except BuildError (Option Project × Liaison) :=
  match project with
  | none => .ok (none, l)
  | some project =>
    if project.services.any (fun s => s.name == sidecarServiceName) then
      .error (.err ("Mutagen sidecar service name (" ++ sidecarServiceName ++ ") conflicts with existing service"))
    else
      match daemonMetadata with
      | .error e => .error (.err ("unable to query daemon metadata: " ++ e))
      | .ok osType =>
        let sessions := project.xMutagen.getD {}
        match extractForwardingDefaults sessions.forwarding with
        | .error e => .error e
        | .ok (fwdDefault, fwdSource, fwdDestination, forwardingSessions) =>
          match extractSynchronizationDefaults sessions.synchronization with
          | .error e => .error e
          | .ok (syncDefault, syncAlpha, syncBeta, synchronizationSessions) =>
            match processForwardingSessions fwdDefault fwdSource fwdDestination
                forwardingSessions with
            | .error e => .error e
            | .ok (forwardingSpecifications, networkDependencies) =>
              match processSynchronizationSessions osType project.workingDir syncDefault
                  syncAlpha syncBeta synchronizationSessions with
              | .error e => .error e
              | .ok (synchronizationSpecifications, volumeDependencies) =>
                match networkDependencies.find? (fun n => !(project.networks.contains n)) with
                | some network =>
                  .error (.err ("undefined network (" ++ network ++ ") referenced by forwarding session"))
                | none =>
                  match volumeDependencies.find? (fun v => !(project.volumes.contains v)) with
                  | some volume =>
                    .error (.err ("undefined volume (" ++ volume ++ ") referenced by synchronization session"))
                  | none =>
                    .ok (some { project with
                          services :=
                            addSidecarDependencies volumeDependencies project.services ++
                              [sidecarService osType networkDependencies volumeDependencies] },
                      { forwarding := forwardingSpecifications
                        synchronization := synchronizationSpecifications })

/-- The name and identifier of a daemon-held session, as carried by a listing
response entry (`state.Session.Name` / `state.Session.Identifier`). -/
structure SessionState where
  name : String
  identifier : String
deriving DecidableEq

/-- One step of the classification loop of reconcileSessions (liaison.go lines
486-494 and 501-509): an orphan (name with no desired specification) or a
duplicate (name already claimed) is appended to the prune list; otherwise the
session becomes the current session for its name. -/
def classifyStep (desired : List (String × α))
    (acc : List String × List (String × SessionState)) (state : SessionState) :
    List String × List (String × SessionState) :=
  if (desired.lookup state.name).isNone then (acc.1 ++ [state.identifier], acc.2)
  else if ((acc.2).lookup state.name).isSome then (acc.1 ++ [state.identifier], acc.2)
  else (acc.1, acc.2 ++ [(state.name, state)])

/-- The classification loop of reconcileSessions over the daemon listing,
producing the prune list and the name-to-current-session map. -/
def classifySessions (desired : List (String × α)) (states : List SessionState) :
    List String × List (String × SessionState) :=
  states.foldl (classifyStep desired) ([], [])

/-- The diff loop of reconcileSessions (liaison.go lines 511-531): a desired
specification without a current session joins the create list; one whose
current session fails the currency check moves its session to the prune list
and itself to the create list. -/
def diffSessions (desired : List (String × α))
    (current : List (String × SessionState)) (sessionCurrent : SessionState → α → Bool) :
    List String × List (String × α) :=
  desired.foldl
    (fun acc entry =>
      match current.lookup entry.1 with
      | none => (acc.1, acc.2 ++ [entry])
      | some existing =>
        if sessionCurrent existing entry.2 then acc
        else (acc.1 ++ [existing.identifier], acc.2 ++ [entry]))
    ([], [])

/-- The full classify/diff computation of one session kind: the accumulated
prune list (orphans and duplicates from classification, then stale sessions
from the diff) and the create list. -/
def reconcilePlan (desired : List (String × α)) (states : List SessionState)
    (sessionCurrent : SessionState → α → Bool) : List String × List (String × α) :=
  let classified := classifySessions desired states
  let diffed := diffSessions desired classified.2 sessionCurrent
  (classified.1 ++ diffed.1, diffed.2)

/-- selection.Selection: an explicit identifier set or a label-equality
expression. -/
structure Selection where
  specifications : List String := []
  labelSelector : String := ""
deriving DecidableEq

/-- The daemon RPCs issued by a reconciliation pass, in issue order. -/
inductive RPCEvent where
  | listForwarding (selection : Selection)
  | listSynchronization (selection : Selection)
  | terminateForwarding (selection : Selection)
  | terminateSynchronization (selection : Selection)
  | resumeForwarding (selection : Selection)
  | resumeSynchronization (selection : Selection)
  | createForwarding (name : String)
  | createSynchronization (name : String)
  | flush (selection : Selection) (background : Bool)
deriving DecidableEq

/-- The session selection criteria built by reconcileSessions (liaison.go
lines 458-461). -/
def reconcileProjectSelection (sidecarID : String) : Selection :=
  { labelSelector := sessionSidecarLabelKey ++ " == " ++ chopSidecarIdentifier sidecarID }

/-- The session selection criteria built by listSessions (liaison.go lines
607-610). -/
def listProjectSelection (sidecarID : String) : Selection :=
  { labelSelector := sessionSidecarLabelKey ++ " == " ++ chopSidecarIdentifier sidecarID }

/-- The session selection criteria built by pauseSessions (liaison.go lines
638-641). -/
def pauseProjectSelection (sidecarID : String) : Selection :=
  { labelSelector := sessionSidecarLabelKey ++ " == " ++ chopSidecarIdentifier sidecarID }

/-- The session selection criteria built by resumeSessions (liaison.go lines
669-672). -/
def resumeProjectSelection (sidecarID : String) : Selection :=
  { labelSelector := sessionSidecarLabelKey ++ " == " ++ chopSidecarIdentifier sidecarID }

/-- The session selection criteria built by terminateSessions (liaison.go
lines 700-703). -/
def terminateProjectSelection (sidecarID : String) : Selection :=
  { labelSelector := sessionSidecarLabelKey ++ " == " ++ chopSidecarIdentifier sidecarID }

/-- reifySidecarURLIfNecessary.  Modelled from the spec (the helper is
declared outside the embedded source file): a sidecar placeholder (Docker
protocol) is rewritten into a concrete reference over the daemon host and the
sidecar container identity; other URLs are untouched. -/
def reifySidecarURLIfNecessary (u : URL) (dockerHost sidecarID : String) : URL :=
  if u.protocol = .docker then { u with path := dockerHost ++ "/" ++ sidecarID ++ "/" ++ u.path }
  else u

/-- The identity-reification loop of reconcileSessions (liaison.go lines
430-445): every specification's sidecar URLs are reified and its ownership
label is stamped with the truncated sidecar identity. -/
def stampSessionSpecifications (l : Liaison) (dockerHost sidecarID : String) : Liaison :=
  { forwarding := l.forwarding.map fun entry =>
      (entry.1,
        { entry.2 with
            source := reifySidecarURLIfNecessary entry.2.source dockerHost sidecarID
            destination := reifySidecarURLIfNecessary entry.2.destination dockerHost sidecarID
            labels := [(sessionSidecarLabelKey, chopSidecarIdentifier sidecarID)] })
    synchronization := l.synchronization.map fun entry =>
      (entry.1,
        { entry.2 with
            alpha := reifySidecarURLIfNecessary entry.2.alpha dockerHost sidecarID
            beta := reifySidecarURLIfNecessary entry.2.beta dockerHost sidecarID
            labels := [(sessionSidecarLabelKey, chopSidecarIdentifier sidecarID)] })}

/-- The emission order of daemon RPCs in reconcileSessions (liaison.go lines
463-591), over the already-computed prune lists, create lists and new
synchronization identifiers: the two listings, at most one batched
termination per session kind, the two unconditional resumptions under the
project selection, one creation RPC per create-list entry, and — when
synchronization sessions were created — a single blocking flush against the
newly created identifiers. -/
def reconcileRPCSequence (projectSelection : Selection)
    (forwardingPruneList synchronizationPruneList : List String)
    (forwardingCreateNames synchronizationCreateNames : List String)
    (newSynchronizationSessions : List String) : List RPCEvent :=
  [.listForwarding projectSelection, .listSynchronization projectSelection]
  ++ (if forwardingPruneList.isEmpty then []
      else [.terminateForwarding { specifications := forwardingPruneList }])
  ++ (if synchronizationPruneList.isEmpty then []
      else [.terminateSynchronization { specifications := synchronizationPruneList }])
  ++ [.resumeForwarding projectSelection, .resumeSynchronization projectSelection]
  ++ forwardingCreateNames.map .createForwarding
  ++ synchronizationCreateNames.map .createSynchronization
  ++ (if newSynchronizationSessions.isEmpty then []
      else [.flush { specifications := newSynchronizationSessions } false])

/-- The sequence of daemon RPCs issued by a successful reconcileSessions pass
(liaison.go lines 447-595), driven by the classify/diff plans of the two
session kinds.  `createdSynchronizationIdentifier` carries the identifier the
daemon returns for each created synchronization session. -/
def reconcileSessionsTrace (l : Liaison) (sidecarID : String)
    (forwardingStates synchronizationStates : List SessionState)
    (forwardingSessionCurrent : SessionState → ForwardingCreationSpecification → Bool)
    (synchronizationSessionCurrent : SessionState → SynchronizationCreationSpecification → Bool)
    (createdSynchronizationIdentifier : String → String) : List RPCEvent :=
  let forwardingPlan := reconcilePlan l.forwarding forwardingStates forwardingSessionCurrent
  let synchronizationPlan :=
    reconcilePlan l.synchronization synchronizationStates synchronizationSessionCurrent
  reconcileRPCSequence (reconcileProjectSelection sidecarID)
    forwardingPlan.1 synchronizationPlan.1
    (forwardingPlan.2.map Prod.fst) (synchronizationPlan.2.map Prod.fst)
    (synchronizationPlan.2.map fun entry => createdSynchronizationIdentifier entry.1)

/-- Event classifier: batched termination RPCs. -/
def isTerminateEvent : RPCEvent → Bool
  | .terminateForwarding _ => true
  | .terminateSynchronization _ => true
  | _ => false

/-- Event classifier: resumption RPCs. -/
def isResumeEvent : RPCEvent → Bool
  | .resumeForwarding _ => true
  | .resumeSynchronization _ => true
  | _ => false

/-- Event classifier: session-creation RPCs. -/
def isCreateEvent : RPCEvent → Bool
  | .createForwarding _ => true
  | .createSynchronization _ => true
  | _ => false

/-- Event classifier: flush RPCs. -/
def isFlushEvent : RPCEvent → Bool
  | .flush _ _ => true
  | _ => false

/-- The identifier set of a termination event, when the event is one. -/
def eventTerminateIdentifiers : RPCEvent → Option (List String)
  | .terminateForwarding sel => some sel.specifications
  | .terminateSynchronization sel => some sel.specifications
  | _ => none

/-- The session name of a creation event, when the event is one. -/
def eventCreateName : RPCEvent → Option String
  | .createForwarding name => some name
  | .createSynchronization name => some name
  | _ => none

/-- The identifier set and background flag of a flush event, when the event is
one. -/
def eventFlushArguments : RPCEvent → Option (List String × Bool)
  | .flush sel background => some (sel.specifications, background)
  | _ => none

/-- The phase of the reconciliation pass an RPC belongs to, in issue order:
listing, pruning, resumption, creation, initial flush. -/
def eventPhase : RPCEvent → Nat
  | .listForwarding _ => 0
  | .listSynchronization _ => 0
  | .terminateForwarding _ => 1
  | .terminateSynchronization _ => 1
  | .resumeForwarding _ => 2
  | .resumeSynchronization _ => 2
  | .createForwarding _ => 3
  | .createSynchronization _ => 3
  | .flush _ _ => 4

/-- A label-equality selection selects exactly the sessions whose labels carry
the selector's value under the ownership-label key.  Modelled from the spec
interface boundary (selection is an identifier set or a label-equality
expression). -/
def selectionMatchesLabels (sel : Selection) (labels : List (String × String)) : Prop :=
  ∃ v, labels.lookup sessionSidecarLabelKey = some v ∧
    sel.labelSelector = sessionSidecarLabelKey ++ " == " ++ v

/-- Per-field three-tier precedence: the override layer wins when set, then
the role-default layer, then the global layer; a field unset at every layer
stays unset. -/
def threeTierField {β : Type} (global roleDefault override merged : Option β) : Prop :=
  (∀ v, override = some v → merged = some v) ∧
  (override = none → ∀ v, roleDefault = some v → merged = some v) ∧
  (override = none → roleDefault = none → merged = global)

/-- Decidable equality of build results, so that witnesses can evaluate the
embedding on concrete inputs. -/
instance exceptDecidableEq {ε α : Type} [DecidableEq ε] [DecidableEq α] :
    DecidableEq (Except ε α) := fun x y =>
  match x, y with
  | .ok a, .ok b =>
    if h : a = b then .isTrue (by rw [h]) else .isFalse fun hc => h (by injection hc)
  | .error a, .error b =>
    if h : a = b then .isTrue (by rw [h]) else .isFalse fun hc => h (by injection hc)
  | .ok _, .error _ => .isFalse fun hc => Except.noConfusion hc
  | .error _, .ok _ => .isFalse fun hc => Except.noConfusion hc

/-- Concrete global-default configuration used by the merge witness. -/
def mergeWitnessDefault : Configuration := { watchMode := some 7 }

/-- Concrete forwarding session definition used by the merge witness. -/
def mergeWitnessSession : ForwardingSessionDef :=
  { source := "tcp:localhost:8080", destination := "network://backend:tcp:web:80"
    configuration := { probeMode := some 9 } }

/-- The specification the build records for `mergeWitnessSession`. -/
def mergeWitnessSpecification : ForwardingCreationSpecification :=
  { source := ⟨.local, "tcp:localhost:8080"⟩
    destination := ⟨.network, "network://backend:tcp:web:80"⟩
    configuration := { watchMode := some 7, probeMode := some 9 }
    configurationSource := {}
    configurationDestination := {}
    name := "web" }

/-- The descriptor the build produces from the empty descriptor: only the
sidecar service. -/
def augmentedEmptyProject : Project :=
  { services := [sidecarService "linux" [] []] }

/-- Concrete synchronization specification used by the trace witness. -/
def syncWitnessSpecification : SynchronizationCreationSpecification :=
  { alpha := ⟨.local, "/proj/app"⟩
    beta := ⟨.docker, "/volumes/cache"⟩
    configuration := {}
    configurationAlpha := {}
    configurationBeta := {}
    name := "data" }

/-- Concrete liaison state used by the trace witness. -/
def traceWitnessLiaison : Liaison :=
  { forwarding := [("web", mergeWitnessSpecification)]
    synchronization := [("data", syncWitnessSpecification)] }

/-- Concrete reconciliation trace used by the trace witness: one orphan
session of each kind is listed, one session of each kind is created. -/
def traceWitness : List RPCEvent :=
  reconcileSessionsTrace traceWitnessLiaison "0123456789abcdef"
    [⟨"old", "fid1"⟩] [⟨"stale", "sid1"⟩] (fun _ _ => true) (fun _ _ => true)
    (fun name => name ++ "-id")

theorem threeTierField_orElse {β : Type} (g r o : Option β) :
    threeTierField g r o (o.orElse fun _ => r.orElse fun _ => g) := by
  refine ⟨?_, ?_, ?_⟩ <;> (intros; cases o <;> cases r <;> simp_all [Option.orElse])

/-- The classification loop with an empty desired set appends every listed
session's identifier to the prune list and claims nothing. -/
theorem classify_foldl_nil_desired {α : Type} (states : List SessionState)
    (p : List String) (c : List (String × SessionState)) :
    states.foldl (classifyStep ([] : List (String × α))) (p, c) =
      (p ++ states.map SessionState.identifier, c) := by
  induction states generalizing p with
  | nil => simp
  | cons s rest ih =>
    simp only [List.foldl_cons, classifyStep, List.lookup_nil, Option.isNone_none, if_true]
    rw [ih]
    simp

/-- Identifiers already on the prune list stay on it through the rest of the
classification loop. -/
theorem classify_prune_mono {α : Type} (desired : List (String × α)) :
    ∀ (states : List SessionState) (p : List String) (c : List (String × SessionState))
      (x : String), x ∈ p → x ∈ (states.foldl (classifyStep desired) (p, c)).1 := by
  intro states
  induction states with
  | nil => intro p c x hx; simpa using hx
  | cons s rest ih =>
    intro p c x hx
    simp only [List.foldl_cons, classifyStep]
    split
    · exact ih _ _ _ (List.mem_append_left _ hx)
    · split
      · exact ih _ _ _ (List.mem_append_left _ hx)
      · exact ih _ _ _ hx

/-- A name-to-session binding, once made, survives the rest of the
classification loop. -/
theorem classify_current_mono {α : Type} (desired : List (String × α)) :
    ∀ (states : List SessionState) (p : List String) (c : List (String × SessionState))
      (n : String) (st : SessionState), c.lookup n = some st →
      ((states.foldl (classifyStep desired) (p, c)).2).lookup n = some st := by
  intro states
  induction states with
  | nil => intro p c n st h; simpa using h
  | cons s rest ih =>
    intro p c n st h
    simp only [List.foldl_cons, classifyStep]
    split
    · exact ih _ _ _ _ h
    · split
      · exact ih _ _ _ _ h
      · refine ih _ _ _ _ ?_
        rw [List.lookup_append, h]
        rfl

/-- Everything the classification loop adds to the prune list is the
identifier of some processed session. -/
theorem classify_prune_subset {α : Type} (desired : List (String × α)) :
    ∀ (states : List SessionState) (p : List String) (c : List (String × SessionState))
      (x : String), x ∈ (states.foldl (classifyStep desired) (p, c)).1 →
      x ∈ p ∨ ∃ s ∈ states, SessionState.identifier s = x := by
  intro states
  induction states with
  | nil => intro p c x hx; exact Or.inl (by simpa using hx)
  | cons s rest ih =>
    intro p c x hx
    simp only [List.foldl_cons, classifyStep] at hx
    have lift : x ∈ p ++ [s.identifier] ∨ (∃ t ∈ rest, SessionState.identifier t = x) →
        x ∈ p ∨ ∃ t ∈ s :: rest, SessionState.identifier t = x := by
      rintro (hmem | ⟨t, ht, rfl⟩)
      · rcases List.mem_append.mp hmem with hmem | hmem
        · exact Or.inl hmem
        · exact Or.inr ⟨s, List.mem_cons_self s rest, (List.mem_singleton.mp hmem).symm⟩
      · exact Or.inr ⟨t, List.mem_cons_of_mem s ht, rfl⟩
    split at hx
    · exact lift (ih _ _ _ hx)
    · split at hx
      · exact lift (ih _ _ _ hx)
      · rcases ih _ _ _ hx with hmem | ⟨t, ht, rfl⟩
        · exact Or.inl hmem
        · exact Or.inr ⟨t, List.mem_cons_of_mem s ht, rfl⟩

/-- The classification loop binds no name that does not occur in the
processed sessions. -/
theorem classify_current_stable {α : Type} (desired : List (String × α)) :
    ∀ (states : List SessionState) (p : List String) (c : List (String × SessionState))
      (n : String), n ∉ states.map SessionState.name →
      ((states.foldl (classifyStep desired) (p, c)).2).lookup n = c.lookup n := by
  intro states
  induction states with
  | nil => intro p c n _; rfl
  | cons s rest ih =>
    intro p c n hn
    simp only [List.map_cons, List.mem_cons, not_or] at hn
    obtain ⟨hne, hnotin⟩ := hn
    simp only [List.foldl_cons, classifyStep]
    split
    · exact ih _ _ _ (by simpa using hnotin)
    · split
      · exact ih _ _ _ (by simpa using hnotin)
      · rw [ih _ _ _ (by simpa using hnotin), List.lookup_append]
        have : List.lookup n [(s.name, s)] = none := by
          simp [List.lookup, beq_eq_false_iff_ne.mpr hne]
        rw [this, Option.or_none]

theorem lookup_key_singleton {β : Type} (k : String) (v : β) :
    List.lookup k [(k, v)] = some v := by
  simp [List.lookup]

theorem lookup_key_singleton_ne {β : Type} (k m : String) (v : β) (h : k ≠ m) :
    List.lookup k [(m, v)] = none := by
  simp [List.lookup, beq_eq_false_iff_ne.mpr h]

/-- Once some processed session carries a defined name, the classification
loop holds a binding for that name. -/
theorem classify_claimed_isSome {α : Type} (desired : List (String × α)) :
    ∀ (states : List SessionState) (p : List String) (c : List (String × SessionState))
      (n : String), (desired.lookup n).isSome →
      ((∃ t ∈ states, SessionState.name t = n) ∨ (c.lookup n).isSome) →
      ((((states.foldl (classifyStep desired) (p, c)).2).lookup n)).isSome := by
  intro states
  induction states with
  | nil =>
    intro p c n _ h
    rcases h with ⟨t, ht, _⟩ | h
    · exact absurd ht (List.not_mem_nil t)
    · simpa using h
  | cons s rest ih =>
    intro p c n hdef h
    simp only [List.foldl_cons, classifyStep]
    split
    · next hnone =>
      rcases h with ⟨t, ht, rfl⟩ | h
      · rcases List.mem_cons.mp ht with rfl | ht
        · rw [Option.isNone_iff_eq_none.mp hnone] at hdef
          exact absurd hdef (by simp)
        · exact ih _ _ _ hdef (Or.inl ⟨t, ht, rfl⟩)
      · exact ih _ _ _ hdef (Or.inr h)
    · split
      · next hsome =>
        rcases h with ⟨t, ht, rfl⟩ | h
        · rcases List.mem_cons.mp ht with rfl | ht
          · exact ih _ _ _ hdef (Or.inr hsome)
          · exact ih _ _ _ hdef (Or.inl ⟨t, ht, rfl⟩)
        · exact ih _ _ _ hdef (Or.inr h)
      · next hsome =>
        by_cases hn : n = s.name
        · subst hn
          refine ih _ _ _ hdef (Or.inr ?_)
          rw [List.lookup_append]
          cases hcase : List.lookup s.name c with
          | none => rw [Option.none_or, lookup_key_singleton]; rfl
          | some v => rfl
        · rcases h with ⟨t, ht, rfl⟩ | h
          · rcases List.mem_cons.mp ht with rfl | ht
            · exact absurd rfl hn
            · exact ih _ _ _ hdef (Or.inl ⟨t, ht, rfl⟩)
          · refine ih _ _ _ hdef (Or.inr ?_)
            rw [List.lookup_append, lookup_key_singleton_ne n s.name s hn, Option.or_none]
            exact h

/-- C1: During reconciliation classification, for every listed session: a
session whose name has no desired specification is pruned as an orphan; a
session whose name was already claimed by an earlier listed session is pruned
as a duplicate; otherwise it becomes the current session for its name — so
among several listed sessions with the same defined name, exactly the first
encountered survives classification and all later ones are pruned. -/
theorem classify_orphans_duplicates_first_survives {α : Type}
    (desired : List (String × α)) (before after : List SessionState) (s : SessionState) :
    ((desired.lookup s.name).isNone = true →
      s.identifier ∈ (classifySessions desired (before ++ s :: after)).1) ∧
    ((desired.lookup s.name).isSome = true → s.name ∈ before.map SessionState.name →
      s.identifier ∈ (classifySessions desired (before ++ s :: after)).1) ∧
    ((desired.lookup s.name).isSome = true → s.name ∉ before.map SessionState.name →
      ((classifySessions desired (before ++ s :: after)).2).lookup s.name = some s ∧
      (((before ++ s :: after).map SessionState.identifier).Nodup →
        s.identifier ∉ (classifySessions desired (before ++ s :: after)).1)) := by
  have hsplit : classifySessions desired (before ++ s :: after) =
      (s :: after).foldl (classifyStep desired)
        (before.foldl (classifyStep desired) ([], [])) := by
    unfold classifySessions
    rw [List.foldl_append]
  set accB := before.foldl (classifyStep desired)
    (([], []) : List String × List (String × SessionState)) with haccB
  refine ⟨?_, ?_, ?_⟩
  · intro h
    rw [hsplit, List.foldl_cons]
    have hstep : classifyStep desired accB s = (accB.1 ++ [s.identifier], accB.2) := by
      unfold classifyStep
      rw [if_pos h]
    rw [hstep]
    exact classify_prune_mono desired after _ _ _
      (List.mem_append_right _ (List.mem_singleton.mpr rfl))
  · intro hdef hbefore
    obtain ⟨t, ht, htn⟩ := List.mem_map.mp hbefore
    have hclaim : ((accB.2).lookup s.name).isSome = true :=
      classify_claimed_isSome desired before [] [] s.name hdef (Or.inl ⟨t, ht, htn⟩)
    have hnotnone : ¬ ((desired.lookup s.name).isNone = true) := by
      rw [Option.isNone_iff_eq_none]
      intro hc
      rw [hc] at hdef
      exact absurd hdef (by simp)
    rw [hsplit, List.foldl_cons]
    have hstep : classifyStep desired accB s = (accB.1 ++ [s.identifier], accB.2) := by
      unfold classifyStep
      rw [if_neg hnotnone, if_pos hclaim]
    rw [hstep]
    exact classify_prune_mono desired after _ _ _
      (List.mem_append_right _ (List.mem_singleton.mpr rfl))
  · intro hdef hnot
    have hnone : (accB.2).lookup s.name = none := by
      rw [haccB, classify_current_stable desired before [] [] s.name hnot]
      rfl
    have hnotnone : ¬ ((desired.lookup s.name).isNone = true) := by
      rw [Option.isNone_iff_eq_none]
      intro hc
      rw [hc] at hdef
      exact absurd hdef (by simp)
    have hnotsome : ¬ (((accB.2).lookup s.name).isSome = true) := by
      rw [hnone]
      simp
    have hstep : classifyStep desired accB s = (accB.1, accB.2 ++ [(s.name, s)]) := by
      unfold classifyStep
      rw [if_neg hnotnone, if_neg hnotsome]
    constructor
    · rw [hsplit, List.foldl_cons, hstep]
      refine classify_current_mono desired after _ _ _ _ ?_
      rw [List.lookup_append, hnone, Option.none_or, lookup_key_singleton]
    · intro hnodup hmem
      rw [List.map_append, List.map_cons] at hnodup
      obtain ⟨-, hn2, hdisj⟩ := List.nodup_append.mp hnodup
      have hnotafter : s.identifier ∉ after.map SessionState.identifier :=
        (List.nodup_cons.mp hn2).1
      have hnotbefore : s.identifier ∉ before.map SessionState.identifier :=
        fun hc => hdisj hc (List.mem_cons_self _ _)
      rw [hsplit, List.foldl_cons, hstep] at hmem
      rcases classify_prune_subset desired after _ _ _ hmem with hacc1 | ⟨t, ht, hid⟩
      · rcases classify_prune_subset desired before _ _ _ hacc1 with hnil | ⟨t, ht, hid⟩
        · exact absurd hnil (List.not_mem_nil _)
        · exact hnotbefore (List.mem_map.mpr ⟨t, ht, hid⟩)
      · exact hnotafter (List.mem_map.mpr ⟨t, ht, hid⟩)

/-- C1 witness: an orphaned name is pruned; of two listed sessions named
`web`, the first survives as current and the second is pruned. -/
theorem classify_orphans_duplicates_first_survives_witness :
    ("id0" ∈ (classifySessions [("web", 0)] [⟨"old", "id0"⟩]).1) ∧
    ("id2" ∈ (classifySessions [("web", 0)] [⟨"web", "id1"⟩, ⟨"web", "id2"⟩]).1) ∧
    ((classifySessions [("web", 0)] [⟨"web", "id1"⟩, ⟨"web", "id2"⟩]).2.lookup "web" =
      some ⟨"web", "id1"⟩) ∧
    ("id1" ∉ (classifySessions [("web", 0)] [⟨"web", "id1"⟩, ⟨"web", "id2"⟩]).1) := by
  have horphan := (classify_orphans_duplicates_first_survives [("web", 0)] [] []
    ⟨"old", "id0"⟩).1 (by decide)
  have hdup := (classify_orphans_duplicates_first_survives [("web", 0)]
    [⟨"web", "id1"⟩] [] ⟨"web", "id2"⟩).2.1 (by decide) (by decide)
  have hfirst := (classify_orphans_duplicates_first_survives [("web", 0)] []
    [⟨"web", "id2"⟩] ⟨"web", "id1"⟩).2.2 (by decide) (by decide)
  exact ⟨horphan, hdup, hfirst.1, hfirst.2 (by decide)⟩

/-- C9: Calling processProject with a nil project is a no-op that returns nil:
whatever the daemon metadata outcome, no sidecar is injected and the liaison's
stored specification maps are unchanged. -/
theorem processProject_nil_project_noop :
    ∀ (daemonMetadata : Except String String) (l : Liaison),
      processProject none daemonMetadata l = .ok (none, l) := by
  intro daemonMetadata l
  rfl

/-- C3: With both desired specification sets empty, a reconciliation pass
prunes every listed session (the prune list is exactly the listing's
identifiers) and creates nothing. -/
theorem reconcile_empty_desired_prunes_all :
    ∀ (l : Liaison) (forwardingStates synchronizationStates : List SessionState)
      (fc : SessionState → ForwardingCreationSpecification → Bool)
      (sc : SessionState → SynchronizationCreationSpecification → Bool),
      l.forwarding = [] → l.synchronization = [] →
      reconcilePlan l.forwarding forwardingStates fc =
        (forwardingStates.map SessionState.identifier, []) ∧
      reconcilePlan l.synchronization synchronizationStates sc =
        (synchronizationStates.map SessionState.identifier, []) := by
  intro l forwardingStates synchronizationStates fc sc hf hs
  constructor
  · rw [hf]
    unfold reconcilePlan classifySessions diffSessions
    rw [classify_foldl_nil_desired]
    simp
  · rw [hs]
    unfold reconcilePlan classifySessions diffSessions
    rw [classify_foldl_nil_desired]
    simp

/-- C3 witness: with no desired sessions and two listed sessions, both are
pruned and none created. -/
theorem reconcile_empty_desired_prunes_all_witness :
    reconcilePlan (Liaison.forwarding {}) [⟨"a", "id1"⟩, ⟨"b", "id2"⟩]
        (fun _ _ => true) = (["id1", "id2"], []) ∧
    reconcilePlan (Liaison.synchronization {}) [⟨"c", "id3"⟩]
        (fun _ _ => true) = (["id3"], []) := by
  have h := reconcile_empty_desired_prunes_all {} [⟨"a", "id1"⟩, ⟨"b", "id2"⟩]
    [⟨"c", "id3"⟩] (fun _ _ => true) (fun _ _ => true) rfl rfl
  exact ⟨h.1, h.2⟩

/-- C4: Effective configuration merging is three-tier, strictly
last-writer-wins per field with precedence override over role default over
global: the build computes each configuration slot of a recorded
specification by the pairwise last-writer-wins merge of the defaults layer
under the session layer, and iterating that merge over the three layers gives
every field the override value when set, else the role-default value when
set, else the global value, with a field unset at every layer remaining
unset. -/
theorem configuration_merge_three_tier :
    (∀ (defaultConfiguration defaultSource defaultDestination : Configuration)
       (name : String) (session : ForwardingSessionDef)
       (specification : ForwardingCreationSpecification) (network : String),
      processForwardingSession defaultConfiguration defaultSource defaultDestination
          name session = .ok (specification, network) →
        specification.configuration =
          mergeConfigurations defaultConfiguration session.configuration ∧
        specification.configurationSource =
          mergeConfigurations defaultSource session.configurationSource ∧
        specification.configurationDestination =
          mergeConfigurations defaultDestination session.configurationDestination) ∧
    (∀ global roleDefault override : Configuration,
      threeTierField global.synchronizationMode roleDefault.synchronizationMode
        override.synchronizationMode
        (mergeThreeTier global roleDefault override).synchronizationMode ∧
      threeTierField global.ignores roleDefault.ignores override.ignores
        (mergeThreeTier global roleDefault override).ignores ∧
      threeTierField global.permissionsMode roleDefault.permissionsMode
        override.permissionsMode
        (mergeThreeTier global roleDefault override).permissionsMode ∧
      threeTierField global.watchMode roleDefault.watchMode override.watchMode
        (mergeThreeTier global roleDefault override).watchMode ∧
      threeTierField global.probeMode roleDefault.probeMode override.probeMode
        (mergeThreeTier global roleDefault override).probeMode) := by
  constructor
  · intro dc ds dd name session specification network h
    unfold processForwardingSession at h
    repeat' split at h
    all_goals try exact Except.noConfusion h
    injection h with h1
    injection h1 with hspec hnet
    subst hspec
    exact ⟨rfl, rfl, rfl⟩
  · intro global roleDefault override
    exact ⟨threeTierField_orElse .., threeTierField_orElse ..,
      threeTierField_orElse .., threeTierField_orElse .., threeTierField_orElse ..⟩

/-- C4 witness: conflicting sentinel values at each layer, and a concrete
successful session build whose recorded slots are the pairwise merges. -/
theorem configuration_merge_three_tier_witness :
    (mergeThreeTier { synchronizationMode := some 1 } { synchronizationMode := some 2 }
        { synchronizationMode := some 3 }).synchronizationMode = some 3 ∧
    (mergeThreeTier { synchronizationMode := some 1 } { synchronizationMode := some 2 }
        {}).synchronizationMode = some 2 ∧
    (mergeThreeTier { synchronizationMode := some 1 } {} {}).synchronizationMode = some 1 ∧
    (mergeThreeTier {} {} {}).synchronizationMode = none ∧
    mergeWitnessSpecification.configuration =
      mergeConfigurations mergeWitnessDefault mergeWitnessSession.configuration := by
  have h3 := (configuration_merge_three_tier.2 { synchronizationMode := some 1 }
    { synchronizationMode := some 2 } { synchronizationMode := some 3 }).1.1 3 rfl
  have h2 := (configuration_merge_three_tier.2 { synchronizationMode := some 1 }
    { synchronizationMode := some 2 } {}).1.2.1 rfl 2 rfl
  have h1 := (configuration_merge_three_tier.2 { synchronizationMode := some 1 } {} {}).1.2.2
    rfl rfl
  have h0 := (configuration_merge_three_tier.2 {} {} {}).1.2.2 rfl rfl
  have hcode := (configuration_merge_three_tier.1 mergeWitnessDefault {} {} "web"
    mergeWitnessSession mergeWitnessSpecification "backend" (by decide)).1
  exact ⟨h3, h2, h1, h0, hcode⟩

/-- C10: The ownership-label value stamped onto every forwarding and
synchronization specification is the truncated sidecar identity, the
label-equality selectors of the list, pause, resume, terminate and reconcile
operations are all identical, and every stamped specification is selected by
each of them. -/
theorem ownership_label_consistency :
    ∀ (dockerHost sidecarID : String) (l : Liaison),
      (listProjectSelection sidecarID = reconcileProjectSelection sidecarID ∧
       pauseProjectSelection sidecarID = reconcileProjectSelection sidecarID ∧
       resumeProjectSelection sidecarID = reconcileProjectSelection sidecarID ∧
       terminateProjectSelection sidecarID = reconcileProjectSelection sidecarID) ∧
      (∀ entry ∈ (stampSessionSpecifications l dockerHost sidecarID).forwarding,
        entry.2.labels.lookup sessionSidecarLabelKey =
          some (chopSidecarIdentifier sidecarID) ∧
        selectionMatchesLabels (reconcileProjectSelection sidecarID) entry.2.labels ∧
        selectionMatchesLabels (listProjectSelection sidecarID) entry.2.labels ∧
        selectionMatchesLabels (pauseProjectSelection sidecarID) entry.2.labels ∧
        selectionMatchesLabels (resumeProjectSelection sidecarID) entry.2.labels ∧
        selectionMatchesLabels (terminateProjectSelection sidecarID) entry.2.labels) ∧
      (∀ entry ∈ (stampSessionSpecifications l dockerHost sidecarID).synchronization,
        entry.2.labels.lookup sessionSidecarLabelKey =
          some (chopSidecarIdentifier sidecarID) ∧
        selectionMatchesLabels (reconcileProjectSelection sidecarID) entry.2.labels ∧
        selectionMatchesLabels (listProjectSelection sidecarID) entry.2.labels ∧
        selectionMatchesLabels (pauseProjectSelection sidecarID) entry.2.labels ∧
        selectionMatchesLabels (resumeProjectSelection sidecarID) entry.2.labels ∧
        selectionMatchesLabels (terminateProjectSelection sidecarID) entry.2.labels) := by
  intro dockerHost sidecarID l
  refine ⟨⟨rfl, rfl, rfl, rfl⟩, ?_, ?_⟩
  · intro entry hentry
    obtain ⟨orig, -, rfl⟩ := List.mem_map.mp hentry
    refine ⟨lookup_key_singleton .., ?_, ?_, ?_, ?_, ?_⟩ <;>
      exact ⟨chopSidecarIdentifier sidecarID, lookup_key_singleton .., rfl⟩
  · intro entry hentry
    obtain ⟨orig, -, rfl⟩ := List.mem_map.mp hentry
    refine ⟨lookup_key_singleton .., ?_, ?_, ?_, ?_, ?_⟩ <;>
      exact ⟨chopSidecarIdentifier sidecarID, lookup_key_singleton .., rfl⟩

/-- C10 witness: on a concrete liaison and sidecar identity, the list
selector equals the reconcile selector and a concrete stamped specification
is selected by the terminate selector. -/
theorem ownership_label_consistency_witness :
    listProjectSelection "0123456789abcdef" = reconcileProjectSelection "0123456789abcdef" ∧
    selectionMatchesLabels (terminateProjectSelection "0123456789abcdef")
      (((stampSessionSpecifications traceWitnessLiaison "tcp://daemon"
        "0123456789abcdef").forwarding.get ⟨0, by decide⟩).2.labels) := by
  have h := ownership_label_consistency "tcp://daemon" "0123456789abcdef" traceWitnessLiaison
  exact ⟨h.1.1, (h.2.1 _ (List.get_mem _ 0 (by decide))).2.2.2.2.2⟩

theorem filterMap_map_none {β : Type} (l : List String) (f : String → RPCEvent)
    (g : RPCEvent → Option β) (h : ∀ n, g (f n) = none) : (l.map f).filterMap g = [] := by
  induction l with
  | nil => rfl
  | cons a t ih => simp [h, ih]

theorem filterMap_map_some (l : List String) (f : String → RPCEvent)
    (g : RPCEvent → Option String) (h : ∀ n, g (f n) = some n) :
    (l.map f).filterMap g = l := by
  induction l with
  | nil => rfl
  | cons a t ih => simp [h, ih]

/-- The termination RPCs of a reconciliation pass are exactly the at most two
batched calls carrying the full prune list of each session kind. -/
theorem reconcileRPCSequence_terminates (sel : Selection) (fP sP fC sC nS : List String) :
    (reconcileRPCSequence sel fP sP fC sC nS).filterMap eventTerminateIdentifiers =
      (if fP.isEmpty then [] else [fP]) ++ (if sP.isEmpty then [] else [sP]) := by
  have hcf : (fC.map RPCEvent.createForwarding).filterMap eventTerminateIdentifiers = [] :=
    filterMap_map_none fC _ _ fun _ => rfl
  have hcs : (sC.map RPCEvent.createSynchronization).filterMap eventTerminateIdentifiers = [] :=
    filterMap_map_none sC _ _ fun _ => rfl
  unfold reconcileRPCSequence
  by_cases h1 : fP.isEmpty <;> by_cases h2 : sP.isEmpty <;> by_cases h3 : nS.isEmpty <;>
    simp [h1, h2, h3, List.filterMap_append, eventTerminateIdentifiers, hcf, hcs]

/-- The creation RPCs of a reconciliation pass are exactly one per create-list
entry, forwarding first, in order. -/
theorem reconcileRPCSequence_creates (sel : Selection) (fP sP fC sC nS : List String) :
    (reconcileRPCSequence sel fP sP fC sC nS).filterMap eventCreateName = fC ++ sC := by
  have hcf : (fC.map RPCEvent.createForwarding).filterMap eventCreateName = fC :=
    filterMap_map_some fC _ _ fun _ => rfl
  have hcs : (sC.map RPCEvent.createSynchronization).filterMap eventCreateName = sC :=
    filterMap_map_some sC _ _ fun _ => rfl
  unfold reconcileRPCSequence
  by_cases h1 : fP.isEmpty <;> by_cases h2 : sP.isEmpty <;> by_cases h3 : nS.isEmpty <;>
    simp [h1, h2, h3, List.filterMap_append, eventCreateName, hcf, hcs]

/-- The flush RPCs of a reconciliation pass: a single blocking flush against
the new synchronization identifiers when there are any, none otherwise. -/
theorem reconcileRPCSequence_flushes (sel : Selection) (fP sP fC sC nS : List String) :
    (reconcileRPCSequence sel fP sP fC sC nS).filterMap eventFlushArguments =
      (if nS.isEmpty then [] else [(nS, false)]) := by
  have hcf : (fC.map RPCEvent.createForwarding).filterMap eventFlushArguments = [] :=
    filterMap_map_none fC _ _ fun _ => rfl
  have hcs : (sC.map RPCEvent.createSynchronization).filterMap eventFlushArguments = [] :=
    filterMap_map_none sC _ _ fun _ => rfl
  unfold reconcileRPCSequence
  by_cases h1 : fP.isEmpty <;> by_cases h2 : sP.isEmpty <;> by_cases h3 : nS.isEmpty <;>
    simp [h1, h2, h3, List.filterMap_append, eventFlushArguments, hcf, hcs]

/-- Both resumptions are always issued, under the project selection. -/
theorem reconcileRPCSequence_resumes (sel : Selection) (fP sP fC sC nS : List String) :
    RPCEvent.resumeForwarding sel ∈ reconcileRPCSequence sel fP sP fC sC nS ∧
    RPCEvent.resumeSynchronization sel ∈ reconcileRPCSequence sel fP sP fC sC nS := by
  unfold reconcileRPCSequence
  constructor <;> simp

theorem eventPhase_le_four (e : RPCEvent) : eventPhase e ≤ 4 := by
  cases e <;> simp [eventPhase]

theorem isTerminateEvent_phase {e : RPCEvent} (h : isTerminateEvent e = true) :
    eventPhase e = 1 := by
  cases e <;> simp_all [isTerminateEvent, eventPhase]

theorem isResumeEvent_phase {e : RPCEvent} (h : isResumeEvent e = true) :
    eventPhase e = 2 := by
  cases e <;> simp_all [isResumeEvent, eventPhase]

theorem isCreateEvent_phase {e : RPCEvent} (h : isCreateEvent e = true) :
    eventPhase e = 3 := by
  cases e <;> simp_all [isCreateEvent, eventPhase]

theorem isFlushEvent_phase {e : RPCEvent} (h : isFlushEvent e = true) :
    eventPhase e = 4 := by
  cases e <;> simp_all [isFlushEvent, eventPhase]

theorem pairwise_phase_of_const (l : List RPCEvent) (r : Nat)
    (h : ∀ e ∈ l, eventPhase e = r) :
    l.Pairwise (fun a b => eventPhase a ≤ eventPhase b) := by
  induction l with
  | nil => exact List.Pairwise.nil
  | cons a t ih =>
    refine List.Pairwise.cons ?_ (ih fun e he => h e (List.mem_cons_of_mem _ he))
    intro b hb
    rw [h a (List.mem_cons_self _ _), h b (List.mem_cons_of_mem _ hb)]

theorem pairwise_phase_append {A B : List RPCEvent} (r : Nat)
    (hA : ∀ e ∈ A, eventPhase e ≤ r) (hB : ∀ e ∈ B, r ≤ eventPhase e)
    (pA : A.Pairwise fun a b => eventPhase a ≤ eventPhase b)
    (pB : B.Pairwise fun a b => eventPhase a ≤ eventPhase b) :
    (A ++ B).Pairwise fun a b => eventPhase a ≤ eventPhase b :=
  List.pairwise_append.mpr ⟨pA, pB, fun a ha b hb => le_trans (hA a ha) (hB b hb)⟩

/-- A seven-segment concatenation with ascending phases is phase-sorted. -/
theorem pairwise_phase_seven (S0 S1 S2 S3 S4 S5 S6 : List RPCEvent)
    (h0 : ∀ e ∈ S0, eventPhase e = 0) (h1 : ∀ e ∈ S1, eventPhase e = 1)
    (h2 : ∀ e ∈ S2, eventPhase e = 1) (h3 : ∀ e ∈ S3, eventPhase e = 2)
    (h4 : ∀ e ∈ S4, eventPhase e = 3) (h5 : ∀ e ∈ S5, eventPhase e = 3)
    (h6 : ∀ e ∈ S6, eventPhase e = 4) :
    (S0 ++ S1 ++ S2 ++ S3 ++ S4 ++ S5 ++ S6).Pairwise
      (fun a b => eventPhase a ≤ eventPhase b) := by
  have p1 := pairwise_phase_append 1 (fun e he => by rw [h0 e he]; omega)
    (fun e he => by rw [h1 e he]) (pairwise_phase_of_const _ 0 h0)
    (pairwise_phase_of_const _ 1 h1)
  have b1 : ∀ e ∈ S0 ++ S1, eventPhase e ≤ 1 := by
    intro e he
    rcases List.mem_append.mp he with h | h
    · rw [h0 e h]; omega
    · rw [h1 e h]
  have p2 := pairwise_phase_append 1 b1 (fun e he => by rw [h2 e he]) p1
    (pairwise_phase_of_const _ 1 h2)
  have b2 : ∀ e ∈ S0 ++ S1 ++ S2, eventPhase e ≤ 2 := by
    intro e he
    rcases List.mem_append.mp he with h | h
    · exact le_trans (b1 e h) (by omega)
    · rw [h2 e h]; omega
  have p3 := pairwise_phase_append 2 b2 (fun e he => by rw [h3 e he]) p2
    (pairwise_phase_of_const _ 2 h3)
  have b3 : ∀ e ∈ S0 ++ S1 ++ S2 ++ S3, eventPhase e ≤ 3 := by
    intro e he
    rcases List.mem_append.mp he with h | h
    · exact le_trans (b2 e h) (by omega)
    · rw [h3 e h]; omega
  have p4 := pairwise_phase_append 3 b3 (fun e he => by rw [h4 e he]) p3
    (pairwise_phase_of_const _ 3 h4)
  have b4 : ∀ e ∈ S0 ++ S1 ++ S2 ++ S3 ++ S4, eventPhase e ≤ 3 := by
    intro e he
    rcases List.mem_append.mp he with h | h
    · exact b3 e h
    · rw [h4 e h]
  have p5 := pairwise_phase_append 3 b4 (fun e he => by rw [h5 e he]) p4
    (pairwise_phase_of_const _ 3 h5)
  exact pairwise_phase_append 4 (fun e _ => eventPhase_le_four e)
    (fun e he => by rw [h6 e he]) p5 (pairwise_phase_of_const _ 4 h6)

/-- The RPC sequence of a reconciliation pass is sorted by phase: listings,
then terminations, then resumptions, then creations, then the flush. -/
theorem reconcileRPCSequence_phase_sorted (sel : Selection) (fP sP fC sC nS : List String) :
    (reconcileRPCSequence sel fP sP fC sC nS).Pairwise
      (fun a b => eventPhase a ≤ eventPhase b) := by
  have hL : ∀ e ∈ ([.listForwarding sel, .listSynchronization sel] : List RPCEvent),
      eventPhase e = 0 := by
    intro e he
    rcases List.mem_cons.mp he with rfl | he
    · rfl
    · rw [List.mem_singleton.mp he]; rfl
  have hTF : ∀ e ∈ (if fP.isEmpty then ([] : List RPCEvent)
      else [.terminateForwarding { specifications := fP }]), eventPhase e = 1 := by
    intro e he
    split at he
    · exact absurd he (List.not_mem_nil _)
    · rw [List.mem_singleton.mp he]; rfl
  have hTS : ∀ e ∈ (if sP.isEmpty then ([] : List RPCEvent)
      else [.terminateSynchronization { specifications := sP }]), eventPhase e = 1 := by
    intro e he
    split at he
    · exact absurd he (List.not_mem_nil _)
    · rw [List.mem_singleton.mp he]; rfl
  have hR : ∀ e ∈ ([.resumeForwarding sel, .resumeSynchronization sel] : List RPCEvent),
      eventPhase e = 2 := by
    intro e he
    rcases List.mem_cons.mp he with rfl | he
    · rfl
    · rw [List.mem_singleton.mp he]; rfl
  have hCF : ∀ e ∈ fC.map RPCEvent.createForwarding, eventPhase e = 3 := by
    intro e he
    obtain ⟨n, -, rfl⟩ := List.mem_map.mp he
    rfl
  have hCS : ∀ e ∈ sC.map RPCEvent.createSynchronization, eventPhase e = 3 := by
    intro e he
    obtain ⟨n, -, rfl⟩ := List.mem_map.mp he
    rfl
  have hFL : ∀ e ∈ (if nS.isEmpty then ([] : List RPCEvent)
      else [.flush { specifications := nS } false]), eventPhase e = 4 := by
    intro e he
    split at he
    · exact absurd he (List.not_mem_nil _)
    · rw [List.mem_singleton.mp he]; rfl
  unfold reconcileRPCSequence
  exact pairwise_phase_seven _ _ _ _ _ _ _ hL hTF hTS hR hCF hCS hFL

/-- In a phase-sorted RPC list, an event of a strictly earlier phase sits at a
strictly smaller index. -/
theorem phase_lt_index_lt {l : List RPCEvent}
    (hp : l.Pairwise fun a b => eventPhase a ≤ eventPhase b)
    (i j : Fin l.length) (hlt : eventPhase (l.get i) < eventPhase (l.get j)) : i < j := by
  by_contra hij
  push_neg at hij
  rcases eq_or_lt_of_le hij with h | h
  · rw [h] at hlt
    exact lt_irrefl _ hlt
  · have := List.pairwise_iff_get.mp hp j i h
    omega

/-- C2: The apply phase of a reconciliation pass executes in strict order:
the accumulated prune lists are terminated first (batched, one call per
session kind), then the sessions under the ownership label are unconditionally
resumed, then every create-list specification is created one RPC per
specification, and a blocking flush is issued against exactly the newly
created synchronization identifiers if and only if at least one
synchronization session was created. -/
theorem reconcile_apply_phase_contract
    (l : Liaison) (sidecarID : String)
    (forwardingStates synchronizationStates : List SessionState)
    (fc : SessionState → ForwardingCreationSpecification → Bool)
    (sc : SessionState → SynchronizationCreationSpecification → Bool)
    (cid : String → String)
    (trace : List RPCEvent) (forwardingPlan : List String × List (String × ForwardingCreationSpecification))
    (synchronizationPlan : List String × List (String × SynchronizationCreationSpecification))
    (htrace : trace =
      reconcileSessionsTrace l sidecarID forwardingStates synchronizationStates fc sc cid)
    (hfp : forwardingPlan = reconcilePlan l.forwarding forwardingStates fc)
    (hsp : synchronizationPlan = reconcilePlan l.synchronization synchronizationStates sc) :
    (trace.filterMap eventTerminateIdentifiers =
      (if forwardingPlan.1.isEmpty then [] else [forwardingPlan.1]) ++
      (if synchronizationPlan.1.isEmpty then [] else [synchronizationPlan.1])) ∧
    (RPCEvent.resumeForwarding (reconcileProjectSelection sidecarID) ∈ trace) ∧
    (RPCEvent.resumeSynchronization (reconcileProjectSelection sidecarID) ∈ trace) ∧
    (trace.filterMap eventCreateName =
      forwardingPlan.2.map Prod.fst ++ synchronizationPlan.2.map Prod.fst) ∧
    (trace.filterMap eventFlushArguments =
      (if synchronizationPlan.2.isEmpty then []
       else [(synchronizationPlan.2.map fun entry => cid entry.1, false)])) ∧
    (∀ i j : Fin trace.length,
      isTerminateEvent (trace.get i) = true → isResumeEvent (trace.get j) = true → i < j) ∧
    (∀ i j : Fin trace.length,
      isResumeEvent (trace.get i) = true → isCreateEvent (trace.get j) = true → i < j) ∧
    (∀ i j : Fin trace.length,
      isCreateEvent (trace.get i) = true → isFlushEvent (trace.get j) = true → i < j) := by
  subst hfp hsp
  have htrace' : trace = reconcileRPCSequence (reconcileProjectSelection sidecarID)
      (reconcilePlan l.forwarding forwardingStates fc).1
      (reconcilePlan l.synchronization synchronizationStates sc).1
      ((reconcilePlan l.forwarding forwardingStates fc).2.map Prod.fst)
      ((reconcilePlan l.synchronization synchronizationStates sc).2.map Prod.fst)
      ((reconcilePlan l.synchronization synchronizationStates sc).2.map
        fun entry => cid entry.1) := htrace
  subst htrace'
  have hp := reconcileRPCSequence_phase_sorted (reconcileProjectSelection sidecarID)
    (reconcilePlan l.forwarding forwardingStates fc).1
    (reconcilePlan l.synchronization synchronizationStates sc).1
    ((reconcilePlan l.forwarding forwardingStates fc).2.map Prod.fst)
    ((reconcilePlan l.synchronization synchronizationStates sc).2.map Prod.fst)
    ((reconcilePlan l.synchronization synchronizationStates sc).2.map
      fun entry => cid entry.1)
  refine ⟨reconcileRPCSequence_terminates .., (reconcileRPCSequence_resumes ..).1,
    (reconcileRPCSequence_resumes ..).2, reconcileRPCSequence_creates .., ?_, ?_, ?_, ?_⟩
  · rw [reconcileRPCSequence_flushes]
    cases (reconcilePlan l.synchronization synchronizationStates sc).2 with
    | nil => rfl
    | cons a t => rfl
  · intro i j hi hj
    exact phase_lt_index_lt hp i j
      (by rw [isTerminateEvent_phase hi, isResumeEvent_phase hj]; omega)
  · intro i j hi hj
    exact phase_lt_index_lt hp i j
      (by rw [isResumeEvent_phase hi, isCreateEvent_phase hj]; omega)
  · intro i j hi hj
    exact phase_lt_index_lt hp i j
      (by rw [isCreateEvent_phase hi, isFlushEvent_phase hj]; omega)

/-- C2 witness: a concrete pass that terminates, resumes, creates and flushes,
with the terminate RPC before the resume, the resume before the create, and
the create before the flush. -/
theorem reconcile_apply_phase_contract_witness :
    isTerminateEvent (traceWitness.get ⟨2, by decide⟩) = true ∧
    isResumeEvent (traceWitness.get ⟨4, by decide⟩) = true ∧
    isCreateEvent (traceWitness.get ⟨6, by decide⟩) = true ∧
    isFlushEvent (traceWitness.get ⟨8, by decide⟩) = true ∧
    (⟨2, by decide⟩ : Fin traceWitness.length) < ⟨4, by decide⟩ ∧
    (⟨4, by decide⟩ : Fin traceWitness.length) < ⟨6, by decide⟩ ∧
    (⟨6, by decide⟩ : Fin traceWitness.length) < ⟨8, by decide⟩ := by
  have h := reconcile_apply_phase_contract traceWitnessLiaison "0123456789abcdef"
    [⟨"old", "fid1"⟩] [⟨"stale", "sid1"⟩] (fun _ _ => true) (fun _ _ => true)
    (fun name => name ++ "-id") traceWitness
    (reconcilePlan traceWitnessLiaison.forwarding [⟨"old", "fid1"⟩] (fun _ _ => true))
    (reconcilePlan traceWitnessLiaison.synchronization [⟨"stale", "sid1"⟩] (fun _ _ => true))
    rfl rfl rfl
  refine ⟨by decide, by decide, by decide, by decide, ?_, ?_, ?_⟩
  · exact h.2.2.2.2.2.1 ⟨2, by decide⟩ ⟨4, by decide⟩ (by decide) (by decide)
  · exact h.2.2.2.2.2.2.1 ⟨4, by decide⟩ ⟨6, by decide⟩ (by decide) (by decide)
  · exact h.2.2.2.2.2.2.2 ⟨6, by decide⟩ ⟨8, by decide⟩ (by decide) (by decide)

/-- Every service the ordering-dependency pass emits keeps the name of the
service it came from. -/
theorem addSidecarDependencies_mem_name (vd : List String) (ss : List ServiceConfig)
    (s : ServiceConfig) (hs : s ∈ addSidecarDependencies vd ss) :
    ∃ t ∈ ss, s.name = t.name := by
  unfold addSidecarDependencies at hs
  obtain ⟨t, ht, rfl⟩ := List.mem_map.mp hs
  refine ⟨t, ht, ?_⟩
  split <;> rfl

/-- A successful build implies the name-collision guard passed. -/
theorem processProject_ok_guard (p : Project) (md : Except String String) (l : Liaison)
    (r : Option Project × Liaison) (h : processProject (some p) md l = .ok r) :
    p.services.any (fun s => s.name == sidecarServiceName) = false := by
  simp only [processProject] at h
  by_cases hg : p.services.any (fun s => s.name == sidecarServiceName) = true
  · rw [if_pos hg] at h
    exact Except.noConfusion h
  · simpa using hg

/-- A successful build returns the input services (with ordering dependencies
added) followed by exactly the sidecar service. -/
theorem processProject_ok_services (p : Project) (md : Except String String) (l : Liaison)
    (p' : Project) (l' : Liaison)
    (h : processProject (some p) md l = .ok (some p', l')) :
    ∃ osType networkDependencies volumeDependencies,
      p'.services = addSidecarDependencies volumeDependencies p.services ++
        [sidecarService osType networkDependencies volumeDependencies] := by
  simp only [processProject] at h
  repeat' split at h
  all_goals try exact Except.noConfusion h
  injection h with h1
  injection h1 with hp hl
  injection hp with hp
  exact ⟨_, _, _, by rw [← hp]⟩

/-- C5 counterexample: the build succeeds on the empty descriptor, but running
the build again on the resulting descriptor returns a service-name-collision
error — not the same result — so the build is not idempotent as claimed. -/
theorem build_not_idempotent_counterexample :
    processProject (some ({} : Project)) (.ok "linux") {} =
      .ok (some augmentedEmptyProject, {}) ∧
    processProject (some augmentedEmptyProject) (.ok "linux") {} =
      .error (.err "Mutagen sidecar service name (mutagen) conflicts with existing service") ∧
    processProject (some augmentedEmptyProject) (.ok "linux") {} ≠
      processProject (some ({} : Project)) (.ok "linux") {} := by
  exact ⟨by decide, by decide, by decide⟩

/-- C5 (amended): the build appends the sidecar service exactly once — a
successful build yields a descriptor holding exactly one sidecar-named
service, and running the build again on that augmented descriptor fails the
name-collision guard with a described error, appending no second sidecar. -/
theorem build_appends_sidecar_exactly_once :
    ∀ (p : Project) (md : Except String String) (l : Liaison) (p' : Project) (l' : Liaison),
      processProject (some p) md l = .ok (some p', l') →
      ((p'.services.filter fun s => s.name == sidecarServiceName).length = 1 ∧
       ∀ (md2 : Except String String) (l2 : Liaison),
         processProject (some p') md2 l2 =
           .error (.err ("Mutagen sidecar service name (" ++ sidecarServiceName ++
             ") conflicts with existing service"))) := by
  intro p md l p' l' h
  obtain ⟨osType, nd, vd, hs⟩ := processProject_ok_services p md l p' l' h
  have hguard := processProject_ok_guard p md l _ h
  have hfilter : (p'.services.filter fun s => s.name == sidecarServiceName) =
      [sidecarService osType nd vd] := by
    rw [hs, List.filter_append]
    have h1 : ((addSidecarDependencies vd p.services).filter
        fun s => s.name == sidecarServiceName) = [] := by
      rw [List.filter_eq_nil_iff]
      intro s hsmem
      obtain ⟨t, ht, hname⟩ := addSidecarDependencies_mem_name vd p.services s hsmem
      have := (List.any_eq_false.mp hguard) t ht
      simp only [hname]
      simpa using this
    rw [h1]
    simp [sidecarService]
  constructor
  · rw [hfilter]
    rfl
  · intro md2 l2
    have hany : p'.services.any (fun s => s.name == sidecarServiceName) = true := by
      rw [hs, List.any_append]
      simp [sidecarService]
    simp only [processProject]
    rw [if_pos hany]

/-- C5 witness: on the concrete augmented descriptor, the sidecar service
occurs once and a second build run fails the collision guard. -/
theorem build_appends_sidecar_exactly_once_witness :
    (augmentedEmptyProject.services.filter fun s => s.name == sidecarServiceName).length = 1 ∧
    processProject (some augmentedEmptyProject) (.ok "linux") {} =
      .error (.err ("Mutagen sidecar service name (" ++ sidecarServiceName ++
        ") conflicts with existing service")) := by
  have h := build_appends_sidecar_exactly_once {} (.ok "linux") {} augmentedEmptyProject {}
    (by decide)
  exact ⟨h.1, h.2 (.ok "linux") {}⟩

/-- A local-classified forwarding URL always reparses under the forwarding
endpoint grammar: url.Parse validated it on the same string. -/
theorem urlParseForwarding_local_reparse (raw : String) (u : URL)
    (h : urlParseForwarding raw = .ok u) (hl : u.protocol = .local) :
    ∃ pr, forwardingurlParse u.path = .ok pr := by
  unfold urlParseForwarding at h
  split at h
  · injection h with h1
    rw [← h1] at hl
    exact absurd hl (by simp)
  · split at h
    · injection h with h1
      rw [← h1] at hl
      exact absurd hl (by simp)
    · split at h
      · exact Except.noConfusion h
      · next val heq =>
        injection h with h1
        rw [← h1]
        exact ⟨val, heq⟩

/-- The per-session forwarding build never reaches the panic branch: its only
panic site, the source reparse, is unreachable. -/
theorem processForwardingSession_not_panicked (dc ds dd : Configuration) (name : String)
    (session : ForwardingSessionDef) :
    ∀ message, processForwardingSession dc ds dd name session ≠
      .error (.panicked message) := by
  intro msg
  unfold processForwardingSession
  split
  · simp
  · split
    · simp
    · split
      · simp
      · next sourceURL hparse =>
        split
        · simp
        · next hlocal =>
          split
          · next a hre =>
            obtain ⟨pr, hok⟩ := urlParseForwarding_local_reparse _ _ hparse
              (not_ne_iff.mp hlocal)
            rw [hok] at hre
            exact absurd hre (by simp)
          · next val hre =>
            repeat' split
            all_goals simp

/-- The forwarding session loop never panics. -/
theorem processForwardingSessions_not_panicked (dc ds dd : Configuration) :
    ∀ sessions message, processForwardingSessions dc ds dd sessions ≠
      .error (.panicked message) := by
  intro sessions
  induction sessions with
  | nil => intro msg; simp [processForwardingSessions]
  | cons entry rest ih =>
    intro msg
    obtain ⟨name, session⟩ := entry
    unfold processForwardingSessions
    split
    · next e heq =>
      intro hc
      injection hc with h1
      rw [h1] at heq
      exact processForwardingSession_not_panicked dc ds dd name session msg heq
    · split
      · next e heq2 =>
        intro hc
        injection hc with h1
        rw [h1] at heq2
        exact ih msg heq2
      · simp

/-- The per-session synchronization build has no panic site. -/
theorem processSynchronizationSession_not_panicked (osType workingDir : String)
    (dc da db : Configuration) (name : String) (session : SynchronizationSessionDef) :
    ∀ message, processSynchronizationSession osType workingDir dc da db name session ≠
      .error (.panicked message) := by
  intro msg
  simp only [processSynchronizationSession]
  repeat' split
  all_goals simp

/-- The synchronization session loop never panics. -/
theorem processSynchronizationSessions_not_panicked (osType workingDir : String)
    (dc da db : Configuration) :
    ∀ sessions message,
      processSynchronizationSessions osType workingDir dc da db sessions ≠
        .error (.panicked message) := by
  intro sessions
  induction sessions with
  | nil => intro msg; simp [processSynchronizationSessions]
  | cons entry rest ih =>
    intro msg
    obtain ⟨name, session⟩ := entry
    unfold processSynchronizationSessions
    split
    · next e heq =>
      intro hc
      injection hc with h1
      rw [h1] at heq
      exact processSynchronizationSession_not_panicked osType workingDir dc da db
        name session msg heq
    · split
      · next e heq2 =>
        intro hc
        injection hc with h1
        rw [h1] at heq2
        exact ih msg heq2
      · simp

/-- Defaults extraction never panics (forwarding). -/
theorem extractForwardingDefaults_not_panicked
    (forwarding : List (String × ForwardingSessionDef)) :
    ∀ message, extractForwardingDefaults forwarding ≠ .error (.panicked message) := by
  intro msg
  unfold extractForwardingDefaults
  repeat' split
  all_goals simp

/-- Defaults extraction never panics (synchronization). -/
theorem extractSynchronizationDefaults_not_panicked
    (synchronization : List (String × SynchronizationSessionDef)) :
    ∀ message, extractSynchronizationDefaults synchronization ≠
      .error (.panicked message) := by
  intro msg
  unfold extractSynchronizationDefaults
  repeat' split
  all_goals simp

/-- The whole build never reaches the panic outcome. -/
theorem processProject_not_panicked (project : Option Project)
    (md : Except String String) (l : Liaison) :
    ∀ message, processProject project md l ≠ .error (.panicked message) := by
  intro msg
  cases project with
  | none => simp [processProject]
  | some p =>
    simp only [processProject]
    split
    · simp
    · split
      · simp
      · split
        · next e heq =>
          intro hc
          injection hc with h1
          rw [h1] at heq
          exact extractForwardingDefaults_not_panicked _ msg heq
        · next heq =>
          split
          · next e heq2 =>
            intro hc
            injection hc with h1
            rw [h1] at heq2
            exact extractSynchronizationDefaults_not_panicked _ msg heq2
          · next heq2 =>
            split
            · next e heq3 =>
              intro hc
              injection hc with h1
              rw [h1] at heq3
              exact processForwardingSessions_not_panicked _ _ _ _ msg heq3
            · next heq3 =>
              split
              · next e heq4 =>
                intro hc
                injection hc with h1
                rw [h1] at heq4
                exact processSynchronizationSessions_not_panicked _ _ _ _ _ _ msg heq4
              · next heq4 =>
                split
                · simp
                · split
                  · simp
                  · simp

/-- C6: No failure in the core causes abrupt termination of the host process:
for every input, the specification build either succeeds or returns a
described error and never reaches the panic outcome — the lone panic site of
the source, the forwarding source reparse, is unreachable (and the
reconciliation, listing, pausing, resumption and termination operations are
modelled as total functions). -/
theorem core_operations_never_panic :
    ∀ (project : Option Project) (daemonMetadata : Except String String) (l : Liaison),
      (∃ result, processProject project daemonMetadata l = .ok result) ∨
      (∃ message, processProject project daemonMetadata l = .error (.err message)) := by
  intro project md l
  cases hr : processProject project md l with
  | ok r => exact Or.inl ⟨r, rfl⟩
  | error e =>
    cases e with
    | err m => exact Or.inr ⟨m, rfl⟩
    | panicked m => exact absurd hr (processProject_not_panicked project md l m)

/-- If any forwarding session entry fails, the forwarding session loop fails
(with the first failing entry's error). -/
theorem processForwardingSessions_error_of_mem (dc ds dd : Configuration) :
    ∀ (sessions : List (String × ForwardingSessionDef)) (name : String)
      (session : ForwardingSessionDef) (e : BuildError),
      (name, session) ∈ sessions →
      processForwardingSession dc ds dd name session = .error e →
      ∃ e2, processForwardingSessions dc ds dd sessions = .error e2 := by
  intro sessions
  induction sessions with
  | nil =>
    intro name session e hmem _
    exact absurd hmem (List.not_mem_nil _)
  | cons entry rest ih =>
    intro name session e hmem hfail
    obtain ⟨n, s⟩ := entry
    rcases List.mem_cons.mp hmem with heq | hmem2
    · injection heq with h1 h2
      subst h1
      subst h2
      exact ⟨e, by simp [processForwardingSessions, hfail]⟩
    · cases hcase : processForwardingSession dc ds dd n s with
      | error e3 => exact ⟨e3, by simp [processForwardingSessions, hcase]⟩
      | ok val =>
        obtain ⟨specification, network⟩ := val
        obtain ⟨e2, hrec⟩ := ih name session e hmem2 hfail
        exact ⟨e2, by simp [processForwardingSessions, hcase, hrec]⟩

/-- If any synchronization session entry fails, the synchronization session
loop fails. -/
theorem processSynchronizationSessions_error_of_mem (osType workingDir : String)
    (dc da db : Configuration) :
    ∀ (sessions : List (String × SynchronizationSessionDef)) (name : String)
      (session : SynchronizationSessionDef) (e : BuildError),
      (name, session) ∈ sessions →
      processSynchronizationSession osType workingDir dc da db name session = .error e →
      ∃ e2, processSynchronizationSessions osType workingDir dc da db sessions =
        .error e2 := by
  intro sessions
  induction sessions with
  | nil =>
    intro name session e hmem _
    exact absurd hmem (List.not_mem_nil _)
  | cons entry rest ih =>
    intro name session e hmem hfail
    obtain ⟨n, s⟩ := entry
    rcases List.mem_cons.mp hmem with heq | hmem2
    · injection heq with h1 h2
      subst h1
      subst h2
      exact ⟨e, by simp [processSynchronizationSessions, hfail]⟩
    · cases hcase : processSynchronizationSession osType workingDir dc da db n s with
      | error e3 => exact ⟨e3, by simp [processSynchronizationSessions, hcase]⟩
      | ok val =>
        obtain ⟨specification, volumes⟩ := val
        obtain ⟨e2, hrec⟩ := ih name session e hmem2 hfail
        exact ⟨e2, by simp [processSynchronizationSessions, hcase, hrec]⟩

/-- C7: Forwarding endpoint validation — a network-style source is rejected, a
source parsing to a non-local protocol fails, a local source with a non-TCP
transport fails, and a non-network destination fails; in every case the build
of the whole project fails before any specification is recorded. -/
theorem forwarding_endpoint_validation :
    (∀ (dc ds dd : Configuration) (name : String) (session : ForwardingSessionDef),
      ensureNameValid name = true → isNetworkURL session.source = true →
      processForwardingSession dc ds dd name session =
        .error (.err ("network URL (" ++ session.source ++
          ") not allowed as forwarding source"))) ∧
    (∀ (dc ds dd : Configuration) (name : String) (session : ForwardingSessionDef)
       (u : URL),
      ensureNameValid name = true → isNetworkURL session.source = false →
      urlParseForwarding session.source = .ok u → u.protocol ≠ .local →
      processForwardingSession dc ds dd name session =
        .error (.err "only local URLs allowed as forwarding sources")) ∧
    (∀ (dc ds dd : Configuration) (name : String) (session : ForwardingSessionDef)
       (u : URL) (protocol address : String),
      ensureNameValid name = true → isNetworkURL session.source = false →
      urlParseForwarding session.source = .ok u → u.protocol = .local →
      forwardingurlParse u.path = .ok (protocol, address) →
      isTCPForwardingProtocol protocol = false →
      processForwardingSession dc ds dd name session =
        .error (.err ("non-TCP-based forwarding endpoint (" ++ u.path ++
          ") unsupported"))) ∧
    (∀ (dc ds dd : Configuration) (name : String) (session : ForwardingSessionDef)
       (u : URL) (protocol address : String),
      ensureNameValid name = true → isNetworkURL session.source = false →
      urlParseForwarding session.source = .ok u → u.protocol = .local →
      forwardingurlParse u.path = .ok (protocol, address) →
      isTCPForwardingProtocol protocol = true →
      isNetworkURL session.destination = false →
      processForwardingSession dc ds dd name session =
        .error (.err ("forwarding destination (" ++ session.destination ++
          ") should be a network URL"))) ∧
    (∀ (project : Project) (md : Except String String) (l : Liaison) (osType : String)
       (dc ds dd : Configuration) (fwdSessions : List (String × ForwardingSessionDef))
       (name : String) (session : ForwardingSessionDef) (e : BuildError),
      md = .ok osType →
      extractForwardingDefaults ((project.xMutagen.getD {}).forwarding) =
        .ok (dc, ds, dd, fwdSessions) →
      (name, session) ∈ fwdSessions →
      processForwardingSession dc ds dd name session = .error e →
      ∃ e2, processProject (some project) md l = .error e2) := by
  refine ⟨?_, ?_, ?_, ?_, ?_⟩
  · intro dc ds dd name session hname hnet
    simp [processForwardingSession, hname, hnet]
  · intro dc ds dd name session u hname hnet hparse hproto
    simp [processForwardingSession, hname, hnet, hparse, hproto]
  · intro dc ds dd name session u protocol address hname hnet hparse hproto hre htcp
    simp [processForwardingSession, hname, hnet, hparse, hproto, hre, htcp]
  · intro dc ds dd name session u protocol address hname hnet hparse hproto hre htcp hdest
    simp [processForwardingSession, hname, hnet, hparse, hproto, hre, htcp, hdest]
  · intro project md l osType dc ds dd fwdSessions name session e hmd hext hmem hfail
    subst hmd
    obtain ⟨e2, hlist⟩ :=
      processForwardingSessions_error_of_mem dc ds dd fwdSessions name session e hmem hfail
    by_cases hg : project.services.any (fun s => s.name == sidecarServiceName) = true
    · exact ⟨.err ("Mutagen sidecar service name (" ++ sidecarServiceName ++
        ") conflicts with existing service"), by simp [processProject, hg]⟩
    · cases hsync :
          extractSynchronizationDefaults ((project.xMutagen.getD {}).synchronization) with
      | error e3 => exact ⟨e3, by simp [processProject, hg, hext, hsync]⟩
      | ok quad =>
        obtain ⟨sc, sa, sb, syncSessions⟩ := quad
        exact ⟨e2, by simp [processProject, hg, hext, hsync, hlist]⟩

/-- C7 witness: concrete sessions exercising each endpoint failure — a
network source, a Docker source, a Unix-socket source, and a non-network
destination — plus a failing entry aborting a whole project build. -/
theorem forwarding_endpoint_validation_witness :
    processForwardingSession {} {} {} "web"
      { source := "network://n:tcp:h:1", destination := "network://backend:tcp:web:80" } =
      .error (.err "network URL (network://n:tcp:h:1) not allowed as forwarding source") ∧
    processForwardingSession {} {} {} "web"
      { source := "docker://c", destination := "network://backend:tcp:web:80" } =
      .error (.err "only local URLs allowed as forwarding sources") ∧
    processForwardingSession {} {} {} "web"
      { source := "unix:/tmp/fwd.sock", destination := "network://backend:tcp:web:80" } =
      .error (.err "non-TCP-based forwarding endpoint (unix:/tmp/fwd.sock) unsupported") ∧
    processForwardingSession {} {} {} "web"
      { source := "tcp:localhost:8080", destination := "volume://x" } =
      .error (.err "forwarding destination (volume://x) should be a network URL") ∧
    (∃ e2, processProject
      (some { xMutagen := some { forwarding :=
        [("web", { source := "docker://c", destination := "network://backend:tcp:web:80" })] } })
      (.ok "linux") {} = .error e2) := by
  refine ⟨?_, ?_, ?_, ?_, ?_⟩
  · exact forwarding_endpoint_validation.1 {} {} {} "web"
      { source := "network://n:tcp:h:1", destination := "network://backend:tcp:web:80" }
      (by decide) (by decide)
  · exact forwarding_endpoint_validation.2.1 {} {} {} "web"
      { source := "docker://c", destination := "network://backend:tcp:web:80" }
      ⟨.docker, "c"⟩ (by decide) (by decide) (by decide) (by decide)
  · exact forwarding_endpoint_validation.2.2.1 {} {} {} "web"
      { source := "unix:/tmp/fwd.sock", destination := "network://backend:tcp:web:80" }
      ⟨.local, "unix:/tmp/fwd.sock"⟩ "unix" "/tmp/fwd.sock"
      (by decide) (by decide) (by decide) (by decide) (by decide) (by decide)
  · exact forwarding_endpoint_validation.2.2.2.1 {} {} {} "web"
      { source := "tcp:localhost:8080", destination := "volume://x" }
      ⟨.local, "tcp:localhost:8080"⟩ "tcp" "localhost:8080"
      (by decide) (by decide) (by decide) (by decide) (by decide) (by decide) (by decide)
  · exact forwarding_endpoint_validation.2.2.2.2
      { xMutagen := some { forwarding :=
        [("web", { source := "docker://c", destination := "network://backend:tcp:web:80" })] } }
      (.ok "linux") {} "linux" {} {} {}
      [("web", { source := "docker://c", destination := "network://backend:tcp:web:80" })]
      "web" { source := "docker://c", destination := "network://backend:tcp:web:80" }
      (.err "only local URLs allowed as forwarding sources")
      rfl (by decide) (by decide) (by decide)

/-- C8: For every synchronization session entry, exactly one of the
alpha/beta pair must match the volume-address grammar: if neither or both
match, the per-session build fails with the corresponding ambiguous-volume
error, and the build of the whole project fails, producing no
specifications. -/
theorem synchronization_volume_role_validation :
    (∀ (osType workingDir : String) (dc da db : Configuration) (name : String)
       (session : SynchronizationSessionDef),
      ensureNameValid name = true →
      isVolumeURL session.alpha = false → isVolumeURL session.beta = false →
      processSynchronizationSession osType workingDir dc da db name session =
        .error (.err ("neither alpha nor beta references a volume in synchronization session (" ++
          name ++ ")"))) ∧
    (∀ (osType workingDir : String) (dc da db : Configuration) (name : String)
       (session : SynchronizationSessionDef),
      ensureNameValid name = true →
      isVolumeURL session.alpha = true → isVolumeURL session.beta = true →
      processSynchronizationSession osType workingDir dc da db name session =
        .error (.err ("both alpha and beta reference volumes in synchronization session (" ++
          name ++ ")"))) ∧
    (∀ (project : Project) (md : Except String String) (l : Liaison) (osType : String)
       (sc sa sb : Configuration)
       (syncSessions : List (String × SynchronizationSessionDef))
       (name : String) (session : SynchronizationSessionDef) (e : BuildError),
      md = .ok osType →
      extractSynchronizationDefaults ((project.xMutagen.getD {}).synchronization) =
        .ok (sc, sa, sb, syncSessions) →
      (name, session) ∈ syncSessions →
      processSynchronizationSession osType project.workingDir sc sa sb name session =
        .error e →
      ∃ e2, processProject (some project) md l = .error e2) := by
  refine ⟨?_, ?_, ?_⟩
  · intro osType workingDir dc da db name session hname ha hb
    simp [processSynchronizationSession, hname, ha, hb]
  · intro osType workingDir dc da db name session hname ha hb
    simp [processSynchronizationSession, hname, ha, hb]
  · intro project md l osType sc sa sb syncSessions name session e hmd hext hmem hfail
    subst hmd
    obtain ⟨e2, hlist⟩ := processSynchronizationSessions_error_of_mem osType
      project.workingDir sc sa sb syncSessions name session e hmem hfail
    by_cases hg : project.services.any (fun s => s.name == sidecarServiceName) = true
    · exact ⟨.err ("Mutagen sidecar service name (" ++ sidecarServiceName ++
        ") conflicts with existing service"), by simp [processProject, hg]⟩
    · cases hfwd : extractForwardingDefaults ((project.xMutagen.getD {}).forwarding) with
      | error e3 => exact ⟨e3, by simp [processProject, hg, hfwd]⟩
      | ok quad =>
        obtain ⟨fd, fsrc, fdst, fwdSessions⟩ := quad
        cases hflist : processForwardingSessions fd fsrc fdst fwdSessions with
        | error e4 => exact ⟨e4, by simp [processProject, hg, hfwd, hext, hflist]⟩
        | ok fval =>
          obtain ⟨fspecs, fnets⟩ := fval
          exact ⟨e2, by simp [processProject, hg, hfwd, hext, hflist, hlist]⟩

/-- C8 witness: a neither-volume pair and a both-volume pair each fail with
the corresponding error, and a failing pair aborts a whole project build. -/
theorem synchronization_volume_role_validation_witness :
    processSynchronizationSession "linux" "/proj" {} {} {} "data"
      { alpha := "./a", beta := "./b" } =
      .error (.err "neither alpha nor beta references a volume in synchronization session (data)") ∧
    processSynchronizationSession "linux" "/proj" {} {} {} "data"
      { alpha := "volume://a", beta := "volume://b" } =
      .error (.err "both alpha and beta reference volumes in synchronization session (data)") ∧
    (∃ e2, processProject
      (some { xMutagen := some { synchronization :=
        [("data", { alpha := "./a", beta := "./b" })] } })
      (.ok "linux") {} = .error e2) := by
  refine ⟨?_, ?_, ?_⟩
  · exact synchronization_volume_role_validation.1 "linux" "/proj" {} {} {} "data"
      { alpha := "./a", beta := "./b" } (by decide) (by decide) (by decide)
  · exact synchronization_volume_role_validation.2.1 "linux" "/proj" {} {} {} "data"
      { alpha := "volume://a", beta := "volume://b" } (by decide) (by decide) (by decide)
  · exact synchronization_volume_role_validation.2.2
      { xMutagen := some { synchronization :=
        [("data", { alpha := "./a", beta := "./b" })] } }
      (.ok "linux") {} "linux" {} {} {}
      [("data", { alpha := "./a", beta := "./b" })]
      "data" { alpha := "./a", beta := "./b" }
      (.err "neither alpha nor beta references a volume in synchronization session (data)")
      rfl (by decide) (by decide) (by decide)

end MutagenCompose
